import Mathlib

/-!
# Verification of the hydraflow graph-validation and compilation core

Shallow embedding of `src/lib/engine/graphValidation.ts` (issue model,
reachability, `validateGraph`) and `src/lib/engine/HydraEngine.ts`
(chain builder, `executeGraph`) from the hydraflow repository, together
with proofs about the behaviour its specification describes.

Modelling conventions:
* JavaScript numbers are modelled as rationals (`ℚ`); `Number.isInteger`
  becomes `q.den = 1`.  Template-literal printing of a number is modelled
  by `ratToString`, which agrees with JavaScript printing on integers
  (the only values printed by the code under test in its own test-suite).
* Node `data` values are numbers or booleans (the values the editor UI
  writes); JavaScript string-to-number coercion is outside the model.
* JavaScript `Map`/`Set` are modelled as association lists / dup-free
  lists with the same lookup ("last `set` wins") and membership
  semantics.
* The recursive traversals carry a fuel argument purely as a structural
  termination device; the top-level entry points pass fuel that is large
  enough for the recursion depth that the original (terminating)
  JavaScript code actually reaches, and running out of fuel returns a
  neutral value.
* External runtime calls (hydra generator functions) are modelled as
  constructors of a syntactic `Chain` type; attaching a chain to an
  output is recorded as an attach event instead of performing a GPU side
  effect.
-/

namespace Hydraflow

/-! ## JavaScript-ish values and number printing -/

/-- A node-`data` value (the editor writes numbers and booleans). -/
inductive JVal where
  | num (q : ℚ)
  | bool (b : Bool)
deriving DecidableEq

/-- JavaScript `Number(v)` on the modelled values. -/
def jsToNumber : JVal → ℚ
  | .num q => q
  | .bool b => if b then 1 else 0

/-- Decimal digits of a natural number, most significant first
(fuel-recursive so that it reduces in the kernel). -/
def natCharsAux : Nat → Nat → List Char
  | 0, _ => []
  | fuel + 1, n =>
    if n < 10 then [Nat.digitChar n]
    else natCharsAux fuel (n / 10) ++ [Nat.digitChar (n % 10)]

/-- Decimal rendering of a natural number (models `${n}` in JS). -/
def natToString (n : Nat) : String := ⟨natCharsAux (n + 1) n⟩

/-- Decimal rendering of an integer (models `${i}` in JS). -/
def intToString (i : Int) : String :=
  if i < 0 then "-" ++ natToString i.natAbs else natToString i.natAbs

/-- Rendering of a JS number.  Agrees with JavaScript for integral
values; non-integral rationals (which are only approximations of JS
doubles in this model) are printed as fractions. -/
def ratToString (q : ℚ) : String :=
  if q.den = 1 then intToString q.num
  else intToString q.num ++ "/" ++ natToString q.den

/-! ## Graph data model (`IRNode` / `IREdge` from `types.ts`) -/

structure IRNode where
  id : String
  type : String
  data : List (String × JVal)
  position : ℚ × ℚ := (0, 0)
deriving DecidableEq

structure IREdge where
  id : String
  source : String
  target : String
  sourceHandle : Option String := none
  targetHandle : Option String := none
  isFeedback : Option Bool := none
deriving DecidableEq

/-- `edge.isFeedback === true` (`isFeedbackEdge` in graphValidation.ts). -/
def isFeedbackEdge (e : IREdge) : Bool := e.isFeedback == some true

/-! ## Association lists (JavaScript `Map`) and small list helpers -/

/-- `Map.get`. -/
def assocGet {α : Type} : List (String × α) → String → Option α
  | [], _ => none
  | (k', v) :: rest, k => if k' = k then some v else assocGet rest k

/-- `Map.set` (overwrites an existing binding, else appends). -/
def assocSet {α : Type} : List (String × α) → String → α → List (String × α)
  | [], k, v => [(k, v)]
  | (k', v') :: rest, k, v =>
    if k' = k then (k, v) :: rest else (k', v') :: assocSet rest k v

/-- `Set.add` (appends if not already present, keeping insertion order). -/
def setAdd (l : List String) (x : String) : List String :=
  if x ∈ l then l else l ++ [x]

/-- Lexicographic code-unit comparison of character lists (the ordering
JavaScript string comparison uses). -/
def charListLt : List Char → List Char → Bool
  | [], [] => false
  | [], _ :: _ => true
  | _ :: _, [] => false
  | a :: as, b :: bs =>
    if a.toNat < b.toNat then true
    else if b.toNat < a.toNat then false
    else charListLt as bs

/-- `a < b` on strings, by code units. -/
def strLt (a b : String) : Bool := charListLt a.data b.data

/-- Stable insertion into a list sorted by a string key; used to model
`Array.prototype.sort` with a string comparator. -/
def insertByKey {α : Type} (key : α → String) (a : α) : List α → List α
  | [] => [a]
  | x :: xs =>
    if strLt (key x) (key a) then x :: insertByKey key a xs else a :: x :: xs

/-- Stable sort by a string key (models `Array.prototype.sort`, which is
stable, with a `localeCompare`-style comparator; on the ASCII handle/key
strings used here `localeCompare` orders like code-unit comparison). -/
def sortByKey {α : Type} (key : α → String) : List α → List α
  | [] => []
  | x :: xs => insertByKey key x (sortByKey key xs)

/-! ## Issue model (graphValidation.ts) -/

inductive IssueSeverity where
  | error
  | warning
deriving DecidableEq

inductive IssueKind where
  | CYCLE
  | NODE_NOT_FOUND
  | UNKNOWN_TRANSFORM
  | NODE_MISSING_INPUTS
  | NODE_EXTRA_INPUTS
  | OUTPUT_INDEX_OUT_OF_RANGE
  | OUTPUT_ARITY
  | RUNTIME_EXECUTION_ERROR
  | UNKNOWN_NODE_DATA_KEY
deriving DecidableEq, Fintype

/-- The string literal of each issue kind (used in issue keys). -/
def IssueKind.name : IssueKind → String
  | .CYCLE => "CYCLE"
  | .NODE_NOT_FOUND => "NODE_NOT_FOUND"
  | .UNKNOWN_TRANSFORM => "UNKNOWN_TRANSFORM"
  | .NODE_MISSING_INPUTS => "NODE_MISSING_INPUTS"
  | .NODE_EXTRA_INPUTS => "NODE_EXTRA_INPUTS"
  | .OUTPUT_INDEX_OUT_OF_RANGE => "OUTPUT_INDEX_OUT_OF_RANGE"
  | .OUTPUT_ARITY => "OUTPUT_ARITY"
  | .RUNTIME_EXECUTION_ERROR => "RUNTIME_EXECUTION_ERROR"
  | .UNKNOWN_NODE_DATA_KEY => "UNKNOWN_NODE_DATA_KEY"

structure Issue where
  key : String
  severity : IssueSeverity
  kind : IssueKind
  message : String
  nodeId : Option String := none
  edgeId : Option String := none
  outputIndex : Option ℚ := none
deriving DecidableEq

/-- `makeIssueKey(kind, parts)` = `[kind, ...parts].join(':')` (written
as a fold, which is the same string); callers pass the
already-stringified parts. -/
def makeIssueKey (kind : String) (parts : List String) : String :=
  parts.foldl (fun acc p => acc ++ ":" ++ p) kind

/-- `dedupeIssues`: keep the first issue for each key. -/
def dedupeIssuesAux (seen : List String) : List Issue → List Issue
  | [] => []
  | i :: rest =>
    if i.key ∈ seen then dedupeIssuesAux seen rest
    else i :: dedupeIssuesAux (i.key :: seen) rest

def dedupeIssues (all : List Issue) : List Issue := dedupeIssuesAux [] all

/-! ## Transform registry metadata (`TransformMeta`) -/

inductive TransformKind where
  | src
  | coord
  | color
  | combine
  | combineCoord
deriving DecidableEq

/-- `TransformMeta`.  `kindByName` is the map the engine revision calls
`typeByName`.  `paramIdsByName` (used by the validator's data-key scan)
holds the *user-facing* parameter ids; `inputsByName` (used by the
engine's argument construction) holds the runtime's *raw* formal input
names, whose first entry for a binary kind is the implicit "other chain"
parameter that `buildChainValidated` drops with `slice(1)`. -/
structure TransformMeta where
  arityByName : List (String × Nat)
  kindByName : List (String × TransformKind)
  paramIdsByName : List (String × List String)
  inputsByName : List (String × List String) := []
  paramDefaultsByName : List (String × List JVal) := []
deriving DecidableEq

/-! ## Reachability (`computeReachability`) -/

/-- All incoming edges of a node, in edge-list order
(`incomingByNodeId.get(nodeId) ?? []`). -/
def incomingEdges (edges : List IREdge) (nodeId : String) : List IREdge :=
  edges.filter (fun e => e.target == nodeId)

/-- The body of the BFS `for (const edge of incoming)` loop, acting on
(reachable nodes, reachable edges, newly queued ids). -/
def bfsFoldStep (acc : List String × List String × List String) (e : IREdge) :
    List String × List String × List String :=
  let re' := setAdd acc.2.1 e.id
  if e.source ∈ acc.1 then (acc.1, re', acc.2.2)
  else (acc.1 ++ [e.source], re', acc.2.2 ++ [e.source])

def bfsLoop (edges : List IREdge) :
    Nat → List String → List String → List String → List String × List String
  | 0, _, rn, re => (rn, re)
  | _ + 1, [], rn, re => (rn, re)
  | fuel + 1, nodeId :: queue, rn, re =>
    let step := (incomingEdges edges nodeId).foldl bfsFoldStep (rn, re, [])
    bfsLoop edges fuel (queue ++ step.2.2) step.1 step.2.1

/-- `computeReachability`: backward BFS from every `out` node; returns
(reachable node ids, reachable edge ids). -/
def computeReachability (nodes : List IRNode) (edges : List IREdge) :
    List String × List String :=
  let outputNodes := nodes.filter (fun n => n.type == "out")
  let rn0 := outputNodes.foldl (fun acc n => setAdd acc n.id) []
  let q0 := outputNodes.map (fun n => n.id)
  bfsLoop edges (nodes.length + edges.length + 1) q0 rn0 []

/-! ## Status records (`rebuildGraphValidationResult`) -/

structure ValidationStatus where
  hasError : Bool
  hasWarning : Bool
  isDead : Bool
  issues : List Issue
deriving DecidableEq

structure GraphValidationResult where
  issues : List Issue
  nodeStatusById : List (String × ValidationStatus)
  edgeStatusById : List (String × ValidationStatus)
  reachableNodes : List String
  reachableEdges : List String
deriving DecidableEq

/-- `issues.filter(i => i.nodeId === node.id)`. -/
def nodeIssuesFor (issues : List Issue) (id : String) : List Issue :=
  issues.filter (fun i => i.nodeId == some id)

/-- `issues.filter(i => i.edgeId === edge.id)`. -/
def edgeIssuesFor (issues : List Issue) (id : String) : List Issue :=
  issues.filter (fun i => i.edgeId == some id)

def hasSev (sev : IssueSeverity) (is_ : List Issue) : Bool :=
  is_.any (fun i => i.severity == sev)

/-- The node status record built for one node id. -/
def mkNodeStatus (issues : List Issue) (reachableNodes : List String)
    (id : String) : ValidationStatus :=
  let nodeIssues := nodeIssuesFor issues id
  { hasError := hasSev .error nodeIssues
    hasWarning := hasSev .warning nodeIssues
    isDead := !(decide (id ∈ reachableNodes))
    issues := nodeIssues }

/-- The edge status record built for one edge, given the node statuses. -/
def mkEdgeStatus (issues : List Issue) (reachableEdges : List String)
    (nodeStatusById : List (String × ValidationStatus)) (e : IREdge) :
    ValidationStatus :=
  let edgeIssues := edgeIssuesFor issues e.id
  let sourceStatus := assocGet nodeStatusById e.source
  let targetStatus := assocGet nodeStatusById e.target
  let hasError := hasSev .error edgeIssues
    || (sourceStatus.map (fun s => s.hasError)).getD false
    || (targetStatus.map (fun s => s.hasError)).getD false
  let hasWarning := !hasError
    && (hasSev .warning edgeIssues
        || (sourceStatus.map (fun s => s.hasWarning)).getD false
        || (targetStatus.map (fun s => s.hasWarning)).getD false)
  { hasError := hasError
    hasWarning := hasWarning
    isDead := !(decide (e.id ∈ reachableEdges))
    issues := edgeIssues }

/-- `rebuildGraphValidationResult`. -/
def rebuildGraphValidationResult (nodes : List IRNode) (edges : List IREdge)
    (issues : List Issue) (reachableNodes reachableEdges : List String) :
    GraphValidationResult :=
  let nodeStatusById := nodes.foldl
    (fun m node => assocSet m node.id (mkNodeStatus issues reachableNodes node.id)) []
  let edgeStatusById := edges.foldl
    (fun m edge =>
      assocSet m edge.id (mkEdgeStatus issues reachableEdges nodeStatusById edge)) []
  { issues := issues
    nodeStatusById := nodeStatusById
    edgeStatusById := edgeStatusById
    reachableNodes := reachableNodes
    reachableEdges := reachableEdges }

/-! ## Structural validation (`validateGraph`) -/

/-- The `OUTPUT_INDEX_OUT_OF_RANGE` issue for one sink. -/
def oioorIssue (id : String) (outputIndex : ℚ) (numOutputs : Nat) : Issue :=
  { key := makeIssueKey "OUTPUT_INDEX_OUT_OF_RANGE" [id, ratToString outputIndex]
    kind := .OUTPUT_INDEX_OUT_OF_RANGE
    severity := .error
    message := "Output index " ++ ratToString outputIndex
      ++ " out of range (0…" ++ intToString ((numOutputs : Int) - 1) ++ ")"
    nodeId := some id
    outputIndex := some outputIndex }

/-- The `OUTPUT_ARITY` issue for one sink. -/
def outputArityIssue (id : String) (outputIndex : ℚ) (found : Nat) : Issue :=
  { key := makeIssueKey "OUTPUT_ARITY" [id]
    kind := .OUTPUT_ARITY
    severity := .error
    message := "Output expects exactly 1 input, found " ++ natToString found
    nodeId := some id
    outputIndex := some outputIndex }

/-- The `UNKNOWN_NODE_DATA_KEY` warning for one data key. -/
def unknownKeyIssue (id dataKey expectedList : String) : Issue :=
  { key := makeIssueKey "UNKNOWN_NODE_DATA_KEY" [id, dataKey]
    kind := .UNKNOWN_NODE_DATA_KEY
    severity := .warning
    message := "Node " ++ id ++ " has unknown parameter \"" ++ dataKey
      ++ "\" (expected: " ++ expectedList ++ ")"
    nodeId := some id }

def cycleIssue (nodeId : String) : Issue :=
  { key := makeIssueKey "CYCLE" [nodeId]
    kind := .CYCLE
    severity := .error
    message := "Same-frame cycle detected involving node " ++ nodeId
      ++ " (feedback edges break cycles)"
    nodeId := some nodeId }

def nodeNotFoundIssue (nodeId : String) : Issue :=
  { key := makeIssueKey "NODE_NOT_FOUND" [nodeId]
    kind := .NODE_NOT_FOUND
    severity := .error
    message := "Node " ++ nodeId ++ " not found"
    nodeId := some nodeId }

def unknownTransformIssue (node : IRNode) : Issue :=
  { key := makeIssueKey "UNKNOWN_TRANSFORM" [node.id, node.type]
    kind := .UNKNOWN_TRANSFORM
    severity := .error
    message := "Unknown transform \"" ++ node.type ++ "\""
    nodeId := some node.id }

/-- The JS `Number(outNode.data?.outputIndex ?? 0)` read of a sink's
output index. -/
def outputIndexOf (node : IRNode) : ℚ :=
  jsToNumber ((assocGet node.data "outputIndex").getD (.num 0))

/-- `!Number.isInteger(i) || i < 0 || i >= numOutputs`. -/
def outputIndexBad (i : ℚ) (numOutputs : Nat) : Prop :=
  ¬ i.den = 1 ∨ i < 0 ∨ (numOutputs : ℚ) ≤ i

instance (i : ℚ) (numOutputs : Nat) : Decidable (outputIndexBad i numOutputs) := by
  unfold outputIndexBad; infer_instance

/-- `validateNodeInputArity` (the `tType` parameter is unused, as in the
source). -/
def validateNodeInputArity (meta : TransformMeta) (node : IRNode)
    (tType : TransformKind) (inputEdges : List IREdge) : List Issue :=
  match assocGet meta.arityByName node.type with
  | none => []
  | some want =>
    let found := inputEdges.length
    if found = want then []
    else
      let issueKind : IssueKind :=
        if found < want then .NODE_MISSING_INPUTS else .NODE_EXTRA_INPUTS
      [{ key := makeIssueKey issueKind.name
          [node.id, node.type, natToString want, natToString found]
         kind := issueKind
         severity := if found < want then .error else .warning
         message := node.type ++ " expects " ++ natToString want
           ++ " input(s), found " ++ natToString found
         nodeId := some node.id }]

/-- The validator's `BuildResult`. -/
inductive VBuildResult where
  | ok
  | err (issues : List Issue)
deriving DecidableEq

abbrev VMemo := List (String × VBuildResult)

/-- Read-only context of `validateNodeChain` (closed over in the
source). -/
structure VCtx where
  meta : TransformMeta
  nodeById : List (String × IRNode)
  edges : List IREdge
  reachableNodes : List String

/-- Issue list carried by a validator build result. -/
def VBuildResult.issuesOf : VBuildResult → List Issue
  | .ok => []
  | .err is_ => is_

/-- One child-recursion step: accumulate the child's issues (on
`!res.ok`) and thread the memo table. -/
def vchildStep (r : VBuildResult) (acc : List Issue) : List Issue :=
  match r with
  | .ok => acc
  | .err is_ => acc ++ is_

/-- One frame of `validateNodeChain`: `go` is the recursive call used on
the node's inputs. -/
def vchainBody (ctx : VCtx)
    (go : String → List String → VMemo → VBuildResult × VMemo)
    (nodeId : String) (stack : List String) (memo : VMemo) :
    VBuildResult × VMemo :=
  if nodeId ∈ stack then (.err [cycleIssue nodeId], memo)
  else
    match assocGet memo nodeId with
    | some r => (r, memo)
    | none =>
      match assocGet ctx.nodeById nodeId with
      | none =>
        let r := VBuildResult.err [nodeNotFoundIssue nodeId]
        (r, assocSet memo nodeId r)
      | some node =>
        if ¬ nodeId ∈ ctx.reachableNodes then
          (VBuildResult.ok, assocSet memo nodeId .ok)
        else
          match assocGet ctx.meta.kindByName node.type with
          | none =>
            let r := VBuildResult.err [unknownTransformIssue node]
            (r, assocSet memo nodeId r)
          | some tType =>
            let inputEdges := incomingEdges ctx.edges node.id
            let arityIssues := validateNodeInputArity ctx.meta node tType inputEdges
            let missing :=
              match assocGet ctx.meta.arityByName node.type with
              | some want => decide (inputEdges.length < want)
              | none => false
            if missing then
              let r := VBuildResult.err arityIssues
              (r, assocSet memo node.id r)
            else
              let newStack := node.id :: stack
              let sortedInputs :=
                if tType = .combine ∨ tType = .combineCoord then
                  sortByKey (fun e => e.targetHandle.getD "input-0") inputEdges
                else inputEdges
              let children :=
                match tType with
                | .coord | .color =>
                  sortedInputs.foldl
                    (fun (acc : List Issue × VMemo) e =>
                      if isFeedbackEdge e then acc
                      else
                        let p := go e.source newStack acc.2
                        (vchildStep p.1 acc.1, p.2))
                    ([], memo)
                | .combine | .combineCoord =>
                  let nonFeedbackSortedInputs :=
                    sortedInputs.filter (fun e => !isFeedbackEdge e)
                  (nonFeedbackSortedInputs.take 2).foldl
                    (fun (acc : List Issue × VMemo) (e : IREdge) =>
                      let p := go e.source newStack acc.2
                      (vchildStep p.1 acc.1, p.2))
                    ([], memo)
                | .src => ([], memo)
              let allIssues := arityIssues ++ children.1
              let r := if allIssues = [] then VBuildResult.ok else .err allIssues
              (r, assocSet children.2 node.id r)

/-- `validateNodeChain`.  Fuel bounds recursion depth (the source
recursion terminates because the stack grows on every recursive call and
is bounded by the node count). -/
def validateNodeChain (ctx : VCtx) :
    Nat → String → List String → VMemo → VBuildResult × VMemo
  | 0, _, _, memo => (.ok, memo)
  | fuel + 1, nodeId, stack, memo =>
    vchainBody ctx (validateNodeChain ctx fuel) nodeId stack memo

/-- `new Map(nodes.map(n => [n.id, n]))` (later duplicates overwrite). -/
def mkNodeById (nodes : List IRNode) : List (String × IRNode) :=
  nodes.foldl (fun m n => assocSet m n.id n) []

/-- Fuel that dominates the recursion depth of `validateNodeChain`
(depth ≤ number of distinct node ids + 1). -/
def chainFuel (nodes : List IRNode) : Nat := nodes.length + 2

/-- Step 2 of `validateGraph`: per-sink output-index and output-arity
checks. -/
def outputCheckIssues (nodes : List IRNode) (edges : List IREdge)
    (numOutputs : Nat) : List Issue :=
  (nodes.filter (fun n => n.type == "out")).foldl
    (fun acc outNode =>
      let outputIndex := outputIndexOf outNode
      let acc :=
        if outputIndexBad outputIndex numOutputs then
          acc ++ [oioorIssue outNode.id outputIndex numOutputs]
        else acc
      let inEdges := incomingEdges edges outNode.id
      if inEdges.length ≠ 1 then
        acc ++ [outputArityIssue outNode.id outputIndex inEdges.length]
      else acc)
    []

/-- Step 5 of `validateGraph`: unknown `data` keys (runs over every node
of known type, reachable or not). -/
def dataKeyScanIssues (nodes : List IRNode) (meta : TransformMeta) : List Issue :=
  nodes.foldl
    (fun acc node =>
      match assocGet meta.kindByName node.type with
      | none => acc
      | some _ =>
        let allowedKeys :=
          ((assocGet meta.paramIdsByName node.type).getD []).foldl setAdd []
        let allowedKeys :=
          if node.type == "out" then setAdd allowedKeys "outputIndex"
          else allowedKeys
        node.data.foldl
          (fun acc kv =>
            if kv.1 ∈ allowedKeys then acc
            else
              let expectedList :=
                String.intercalate ", " (sortByKey (fun s => s) allowedKeys)
              acc ++ [unknownKeyIssue node.id kv.1 expectedList])
          acc)
    []

/-- Step 4 of `validateGraph`: recursive chain validation from every
sink with exactly one input, sharing one memo table. -/
def sinkChainScan (ctx : VCtx) (fuel : Nat) (outputNodes : List IRNode) :
    List Issue × VMemo :=
  outputNodes.foldl
    (fun (acc : List Issue × VMemo) outNode =>
      match incomingEdges ctx.edges outNode.id with
      | [e] =>
        let p := validateNodeChain ctx fuel e.source [] acc.2
        (vchildStep p.1 acc.1, p.2)
      | _ => acc)
    ([], [])

/-- `validateGraph` (graphValidation.ts). -/
def validateGraph (nodes : List IRNode) (edges : List IREdge)
    (numOutputs : Nat) (meta : TransformMeta) : GraphValidationResult :=
  let nodeById := mkNodeById nodes
  let reach := computeReachability nodes edges
  let outputNodes := nodes.filter (fun n => n.type == "out")
  let outputIssues := outputCheckIssues nodes edges numOutputs
  let dataKeyIssues := dataKeyScanIssues nodes meta
  let ctx : VCtx := ⟨meta, nodeById, edges, reach.1⟩
  let chain := sinkChainScan ctx (chainFuel nodes) outputNodes
  let allIssues := dedupeIssues (outputIssues ++ dataKeyIssues ++ chain.1)
  rebuildGraphValidationResult nodes edges allIssues reach.1 reach.2

/-! ## Execution engine (`HydraEngine.ts`)

Chains built against the hydra runtime are modelled syntactically; a
generator/operator call records its name and argument list.  Runtime
availability flags on `EngineState` stand for the `typeof f ===
'function'` / `outputs?.[i]` checks the source performs explicitly.
Attaching a compiled chain to a numbered output is recorded as an attach
event. -/

/-- A hydra chain value, as constructed by the builder. -/
inductive Chain where
  /-- `generators[name](...args)` (source-kind node). -/
  | gen (name : String) (args : List (Option JVal))
  /-- `gens.src(outputs[k])` — the previous frame of output `k`. -/
  | srcOut (outputIndex : ℚ)
  /-- `gens.src(sources[CAMERA_SOURCE_INDEX])`. -/
  | srcCam
  /-- The `gens.solid?.(0, 0, 0, 1)` camera fallback. -/
  | camFallback
  /-- `base[name](...args)` (unary coord/color call). -/
  | method (base : Chain) (name : String) (args : List (Option JVal))
  /-- `base[name](other, ...args)` (binary combine call). -/
  | method2 (base : Chain) (name : String) (other : Chain) (args : List (Option JVal))
deriving DecidableEq

/-- Mutable and configuration state of a `HydraEngine` instance. -/
structure EngineState where
  meta : TransformMeta
  /-- `this.hydra !== null`. -/
  hydraInit : Bool
  isInitialized : Bool
  /-- `this.hydra.outputs.length`. -/
  numOutputs : Nat
  /-- `typeof gens.src === 'function'`. -/
  srcAvailable : Bool
  /-- `sources[CAMERA_SOURCE_INDEX]` exists with an `initCam` function. -/
  cameraSourceOk : Bool
  isCameraInitialised : Bool
  cameraInitError : Option String
deriving DecidableEq

/-- The engine's `BuildResult`. -/
inductive EBuildResult where
  | ok (chain : Chain)
  | err (issues : List Issue)
deriving DecidableEq

abbrev EMemo := List (String × EBuildResult)

def EBuildResult.issuesOf : EBuildResult → List Issue
  | .ok _ => []
  | .err is_ => is_

/-- `trimUndefTail`: drop trailing `undefined` arguments. -/
def trimUndefTail (xs : List (Option JVal)) : List (Option JVal) :=
  (xs.reverse.dropWhile (fun a => a.isNone)).reverse

/-- A `RUNTIME_EXECUTION_ERROR` issue (key parts mirror each call
site). -/
def runtimeIssue (nodeId : String) (outputIndex : Option ℚ)
    (message : String) : Issue :=
  { key := makeIssueKey "RUNTIME_EXECUTION_ERROR"
      (nodeId :: (match outputIndex with
                  | some q => [ratToString q]
                  | none => []))
    kind := .RUNTIME_EXECUTION_ERROR
    severity := .error
    message := message
    nodeId := some nodeId
    outputIndex := outputIndex }

/-- `initCameraSource` (console output ignored). -/
def initCameraSource (st : EngineState) : EngineState :=
  if st.isCameraInitialised || st.cameraInitError.isSome || !st.hydraInit then st
  else
    let st := { st with isCameraInitialised := true }
    if st.cameraSourceOk then st
    else { st with cameraInitError := some "Hydra camera source not available" }

/-- Whether `hydra.outputs?.[i]` yields an output object: `i` must be an
integral index inside `[0, numOutputs)`. -/
def outputAvailable (st : EngineState) (i : ℚ) : Prop :=
  i.den = 1 ∧ 0 ≤ i ∧ i < (st.numOutputs : ℚ)

instance (st : EngineState) (i : ℚ) : Decidable (outputAvailable st i) := by
  unfold outputAvailable; infer_instance

/-- `buildFeedbackChainForOutput`: a feedback slot reads the previous
frame of the output currently being compiled. -/
def buildFeedbackChainForOutput (st : EngineState) (outputIndex : ℚ)
    (nodeIdForErrors : String) : EBuildResult :=
  if !st.hydraInit then
    .err [runtimeIssue nodeIdForErrors (some outputIndex)
      "Hydra is not initialised; cannot build feedback chain"]
  else if ¬ outputAvailable st outputIndex then
    .err [runtimeIssue nodeIdForErrors (some outputIndex)
      ("Output " ++ ratToString outputIndex ++ " not available for feedback")]
  else if !st.srcAvailable then
    .err [runtimeIssue nodeIdForErrors (some outputIndex)
      "Hydra \"src\" generator is not available for feedback"]
  else
    .ok (.srcOut outputIndex)

/-- Read-only context of `buildChainValidated`. -/
structure ECtx where
  nodes : List IRNode
  edges : List IREdge
  nodeById : List (String × IRNode)

/-- One frame of `buildChainValidated`: `go` is the recursive call used
on the node's inputs. -/
def ebuildBody (ctx : ECtx)
    (go : EngineState → String → ℚ → List String → EMemo →
      EBuildResult × EngineState × EMemo)
    (st : EngineState) (nodeId : String) (outputIndex : ℚ)
    (stack : List String) (memo : EMemo) :
    EBuildResult × EngineState × EMemo :=
  if nodeId ∈ stack then (.err [cycleIssue nodeId], st, memo)
    else
      match assocGet memo nodeId with
      | some r => (r, st, memo)
      | none =>
        match assocGet ctx.nodeById nodeId with
        | none =>
          let r := EBuildResult.err [nodeNotFoundIssue nodeId]
          (r, st, assocSet memo nodeId r)
        | some node =>
          if node.type == "camera" then
            if !st.hydraInit then
              let r := EBuildResult.err [runtimeIssue node.id none
                "Hydra is not initialised; cannot use camera source"]
              (r, st, assocSet memo nodeId r)
            else
              let st := initCameraSource st
              match st.cameraInitError with
              | some msg =>
                let r := EBuildResult.err [runtimeIssue node.id none msg]
                (r, st, assocSet memo nodeId r)
              | none =>
                let chain := if st.srcAvailable then Chain.srcCam else Chain.camFallback
                let r := EBuildResult.ok chain
                (r, st, assocSet memo nodeId r)
          else
            match assocGet st.meta.kindByName node.type with
            | none =>
              let r := EBuildResult.err [unknownTransformIssue node]
              (r, st, assocSet memo nodeId r)
            | some tType =>
              let inputEdges := ctx.edges.filter (fun e => e.target == nodeId)
              let forwardInputs := inputEdges.filter (fun e => !isFeedbackEdge e)
              let feedbackInputs := inputEdges.filter (fun e => isFeedbackEdge e)
              let allNames := (assocGet st.meta.inputsByName node.type).getD []
              let paramNames :=
                if tType = .combine ∨ tType = .combineCoord then allNames.drop 1
                else allNames
              let rawArgs := paramNames.map (fun k => assocGet node.data k)
              match tType with
              | .src =>
                let r := EBuildResult.ok (.gen node.type (trimUndefTail rawArgs))
                (r, st, assocSet memo nodeId r)
              | .coord | .color =>
                match forwardInputs with
                | forward :: _ =>
                  let res := go st forward.source
                    outputIndex (nodeId :: stack) memo
                  (match res.1 with
                   | .err is_ =>
                     let r := EBuildResult.err is_
                     (r, res.2.1, assocSet res.2.2 node.id r)
                   | .ok base =>
                     let r := EBuildResult.ok
                       (.method base node.type (trimUndefTail rawArgs))
                     (r, res.2.1, assocSet res.2.2 nodeId r))
                | [] =>
                  if feedbackInputs.length > 0 then
                    match buildFeedbackChainForOutput st outputIndex node.id with
                    | .err is_ =>
                      let r := EBuildResult.err is_
                      (r, st, assocSet memo node.id r)
                    | .ok base =>
                      let r := EBuildResult.ok
                        (.method base node.type (trimUndefTail rawArgs))
                      (r, st, assocSet memo nodeId r)
                  else
                    let r := EBuildResult.err [runtimeIssue node.id (some outputIndex)
                      (node.type ++ " has no input at runtime (expected 1, found 0)")]
                    (r, st, assocSet memo node.id r)
              | .combine | .combineCoord =>
                let edge0 := inputEdges.find?
                  (fun e => e.targetHandle.getD "input-0" == "input-0")
                let edge1 := inputEdges.find?
                  (fun e => e.targetHandle.getD "input-0" == "input-1")
                match edge0, edge1 with
                | some e0, some e1 =>
                  let resA :=
                    if isFeedbackEdge e0 then
                      (buildFeedbackChainForOutput st outputIndex node.id, st, memo)
                    else
                      go st e0.source outputIndex
                        (node.id :: stack) memo
                  let resB :=
                    if isFeedbackEdge e1 then
                      (buildFeedbackChainForOutput resA.2.1 outputIndex node.id,
                       resA.2.1, resA.2.2)
                    else
                      go resA.2.1 e1.source outputIndex
                        (node.id :: stack) resA.2.2
                  (match resA.1, resB.1 with
                   | .ok a, .ok b =>
                     let r := EBuildResult.ok
                       (.method2 a node.type b (trimUndefTail rawArgs))
                     (r, resB.2.1, assocSet resB.2.2 nodeId r)
                   | ra, rb =>
                     let r := EBuildResult.err (ra.issuesOf ++ rb.issuesOf)
                     (r, resB.2.1, assocSet resB.2.2 node.id r))
                | _, _ =>
                  let found := (if edge0.isSome then 1 else 0)
                    + (if edge1.isSome then 1 else 0)
                  let r := EBuildResult.err [runtimeIssue node.id (some outputIndex)
                    (node.type ++ " expects 2 inputs at runtime, found "
                      ++ natToString found)]
                  (r, st, assocSet memo node.id r)

/-- `buildChainValidated`.  Threads the (camera) engine state and the
memo table; fuel bounds recursion depth exactly as for the validator. -/
def buildChainValidated (ctx : ECtx) :
    Nat → EngineState → String → ℚ → List String → EMemo →
    EBuildResult × EngineState × EMemo
  | 0, st, _, _, _, memo => (.err [], st, memo)
  | fuel + 1, st, nodeId, outputIndex, stack, memo =>
    ebuildBody ctx (buildChainValidated ctx fuel) st nodeId outputIndex stack memo

/-- An attach of a compiled chain to a numbered output
(`result.chain.out(this.hydra.outputs[outputIndex])`), recorded as an
event. -/
structure AttachEvent where
  outputIndex : ℚ
  chain : Chain
deriving DecidableEq

/-- `buildAndExecuteChain`: build the chain for `nodeId` and attach it to
output `outputIndex`.  `none` in the first component means success. -/
def buildAndExecuteChain (st : EngineState) (nodes : List IRNode)
    (edges : List IREdge) (nodeId : String) (outputIndex : ℚ) :
    Option (List Issue) × EngineState × List AttachEvent :=
  let ctx : ECtx := ⟨nodes, edges, mkNodeById nodes⟩
  let res := buildChainValidated ctx (chainFuel nodes) st nodeId outputIndex [] []
  match res.1 with
  | .err is_ => (some is_, res.2.1, [])
  | .ok chain =>
    if !res.2.1.hydraInit then
      (some [runtimeIssue nodeId (some outputIndex) "Hydra is not initialised"],
       res.2.1, [])
    else
      (none, res.2.1, [⟨outputIndex, chain⟩])

/-- The per-sink build-and-attach loop of `executeGraph`: for every
`out` node with exactly one incoming edge, build its chain and attach it
to the sink's output index, accumulating runtime issues, the threaded
engine state, and the attach events tagged with the sink's id. -/
def compileOutputsFold (st : EngineState) (nodes : List IRNode)
    (edges : List IREdge) :
    List Issue × EngineState × List (String × AttachEvent) :=
  (nodes.filter (fun n => n.type == "out")).foldl
    (fun (acc : List Issue × EngineState × List (String × AttachEvent)) outputNode =>
      let outputIndex := outputIndexOf outputNode
      match edges.filter (fun e => e.target == outputNode.id) with
      | [inputEdge] =>
        let r := buildAndExecuteChain acc.2.1 nodes edges inputEdge.source outputIndex
        (acc.1 ++ (r.1.getD []), r.2.1,
         acc.2.2 ++ r.2.2.map (fun ev => (outputNode.id, ev)))
      | _ => acc)
    ([], st, [])

/-- `executeGraph`.  Returns the merged validation result, the updated
engine state, and the attach events tagged with the sink node each
attach was performed for. -/
def executeGraph (st : EngineState) (nodes : List IRNode)
    (edges : List IREdge) :
    GraphValidationResult × EngineState × List (String × AttachEvent) :=
  let numOutputs := if st.hydraInit then st.numOutputs else 4
  let baseValidation := validateGraph nodes edges numOutputs st.meta
  let structuralIssues := baseValidation.issues
  let hasStructuralErrors := hasSev .error structuralIssues
  let step :=
    if !st.hydraInit || !st.isInitialized then (([] : List Issue), st, ([] : List (String × AttachEvent)))
    else if hasStructuralErrors then ([], st, [])
    else compileOutputsFold st nodes edges
  let allIssues := dedupeIssues (structuralIssues ++ step.1)
  (rebuildGraphValidationResult nodes edges allIssues
    baseValidation.reachableNodes baseValidation.reachableEdges,
   step.2.1, step.2.2)

/-! ## Backward paths to an output sink

`ReachesOut nodes edges x` holds when `x` (a node id, or an edge-source
id) can reach some `out`-typed node by walking edges forward — i.e. the
specification's "path (via incoming edges) back to an output-sink node",
seen from the node's side. -/

inductive ReachesOut (nodes : List IRNode) (edges : List IREdge) : String → Prop where
  | out (n : IRNode) (hn : n ∈ nodes) (ht : n.type = "out") :
      ReachesOut nodes edges n.id
  | step (e : IREdge) (he : e ∈ edges) (ht : ReachesOut nodes edges e.target) :
      ReachesOut nodes edges e.source

/-- Every issue the system constructs has a key that starts with its
kind's name followed by a colon. -/
def KeyShaped (i : Issue) : Prop :=
  ∃ r : List Char, i.key.data = (IssueKind.name i.kind).data ++ ':' :: r

/-- Invariant satisfied by every issue that `validateNodeChain` can
emit: it is one of the five chain issue kinds, it names a node that is
either backward-reachable from a sink or absent from the node map, and
its key is shaped from its kind. -/
def ChainIssue (ctx : VCtx) (i : Issue) : Prop :=
  (i.kind = .CYCLE ∨ i.kind = .NODE_NOT_FOUND ∨ i.kind = .UNKNOWN_TRANSFORM ∨
    i.kind = .NODE_MISSING_INPUTS ∨ i.kind = .NODE_EXTRA_INPUTS) ∧
  (∃ x, i.nodeId = some x ∧ (x ∈ ctx.reachableNodes ∨ assocGet ctx.nodeById x = none)) ∧
  KeyShaped i

/-- Invariant on the chain-validation memo table: every stored result
carries only `ChainIssue`-shaped issues. -/
def MemoChainOK (ctx : VCtx) (memo : VMemo) : Prop :=
  ∀ p ∈ memo, ∀ i ∈ VBuildResult.issuesOf p.2, ChainIssue ctx i

/-- The issue avoids attaching a `CYCLE` or `NODE_MISSING_INPUTS`
diagnosis to the node `nid` (used for the feedback-self-loop claim). -/
def IssueAvoids (nid : String) (i : Issue) : Prop :=
  i.nodeId = some nid → ¬ i.kind = .CYCLE ∧ ¬ i.kind = .NODE_MISSING_INPUTS

/-- Memo-table invariant for `IssueAvoids`. -/
def MemoAvoids (nid : String) (memo : VMemo) : Prop :=
  ∀ p ∈ memo, ∀ i ∈ VBuildResult.issuesOf p.2, IssueAvoids nid i

/-- Exact form of an issue produced by the per-sink output checks
(step 2 of `validateGraph`). -/
def OutputCheckIssue (nodes : List IRNode) (edges : List IREdge)
    (numOutputs : Nat) (i : Issue) : Prop :=
  ∃ m ∈ nodes, m.type = "out" ∧
    ((i = oioorIssue m.id (outputIndexOf m) numOutputs ∧
        outputIndexBad (outputIndexOf m) numOutputs) ∨
      (i = outputArityIssue m.id (outputIndexOf m)
          (incomingEdges edges m.id).length ∧
        (incomingEdges edges m.id).length ≠ 1))

/-- Shape of an issue produced by the unknown-data-key scan (step 5 of
`validateGraph`). -/
def DataKeyIssue (i : Issue) : Prop :=
  i.kind = .UNKNOWN_NODE_DATA_KEY ∧ i.severity = .warning ∧ KeyShaped i

/-! ## Concrete registry and graphs used in witnesses

`wMeta` mirrors `createMeta()` from the repository's test-suite, extended
with the engine's raw `inputsByName` map (whose binary entries carry the
implicit leading chain parameter). -/

def wMeta : TransformMeta :=
  { arityByName := [("src", 0), ("osc", 0), ("rotate", 1), ("blend", 2), ("out", 1)]
    kindByName := [("src", .src), ("osc", .src), ("rotate", .coord),
      ("blend", .combine), ("out", .color)]
    paramIdsByName := [("src", []), ("osc", ["frequency", "sync", "offset"]),
      ("rotate", ["angle", "speed"]), ("blend", ["amount"]), ("out", [])]
    inputsByName := [("src", []), ("osc", ["frequency", "sync", "offset"]),
      ("rotate", ["angle", "speed"]), ("blend", ["color", "amount"]),
      ("out", ["color"])] }

/-- An engine instance with a live, fully capable runtime. -/
def wEngine : EngineState :=
  { meta := wMeta, hydraInit := true, isInitialized := true, numOutputs := 4
    srcAvailable := true, cameraSourceOk := true, isCameraInitialised := false
    cameraInitError := none }

/-- C3 counterexample graph: a single unreachable `osc` node carrying an
unknown data key. -/
def c3nodes : List IRNode := [⟨"osc-1", "osc", [("freq", .num 2)], (0, 0)⟩]

/-- C9 witness graph: a single sink with no incident edges. -/
def c9nodes : List IRNode := [⟨"out-A", "out", [("outputIndex", .num 0)], (0, 0)⟩]

/-- C5 witness graph: a sink with `outputIndex = 99`. -/
def c5nodes : List IRNode :=
  [⟨"src-1", "src", [], (0, 0)⟩, ⟨"out-1", "out", [("outputIndex", .num 99)], (0, 0)⟩]

def c5edges : List IREdge := [⟨"e1", "src-1", "out-1", none, none, none⟩]

/-- C1 witness graph: a unary node whose only input is a direct
feedback self-loop, feeding a sink. -/
def c1nodes : List IRNode :=
  [⟨"rotate-1", "rotate", [("angle", .num 1)], (0, 0)⟩,
   ⟨"out-1", "out", [("outputIndex", .num 0)], (0, 0)⟩]

def c1edges : List IREdge :=
  [⟨"e1", "rotate-1", "rotate-1", none, none, some true⟩,
   ⟨"e2", "rotate-1", "out-1", none, none, none⟩]

/-- C6 witness graph: a binary `blend` node with three incoming edges
(one per slot plus one extra), feeding a sink. -/
def c6nodes : List IRNode :=
  [⟨"src-1", "src", [], (0, 0)⟩, ⟨"src-2", "src", [], (0, 0)⟩,
   ⟨"src-3", "src", [], (0, 0)⟩, ⟨"blend-1", "blend", [], (0, 0)⟩,
   ⟨"out-1", "out", [("outputIndex", .num 0)], (0, 0)⟩]

def c6edges : List IREdge :=
  [⟨"e1", "src-1", "blend-1", none, some "input-0", none⟩,
   ⟨"e2", "src-2", "blend-1", none, some "input-1", none⟩,
   ⟨"e3", "src-3", "blend-1", none, some "input-0", none⟩,
   ⟨"e4", "blend-1", "out-1", none, none, none⟩]

/-- C8 counterexample graph: a `blend` node that simultaneously earns a
`NODE_MISSING_INPUTS` error (only one incoming edge) and an
`UNKNOWN_NODE_DATA_KEY` warning (bogus data key). -/
def c8nodes : List IRNode :=
  [⟨"osc-1", "osc", [("frequency", .num 10)], (0, 0)⟩,
   ⟨"blend-1", "blend", [("bogus", .num 1)], (0, 0)⟩,
   ⟨"out-1", "out", [("outputIndex", .num 0)], (0, 0)⟩]

def c8edges : List IREdge :=
  [⟨"e1", "osc-1", "blend-1", none, some "input-0", none⟩,
   ⟨"e2", "blend-1", "out-1", none, none, none⟩]

/-- Edgewise relation: two edges that agree on everything the chain
builder reads, except that a feedback-marked edge's nominal `source` may
differ arbitrarily. -/
def FeedbackRetarget (e e' : IREdge) : Prop :=
  e.target = e'.target ∧ e.targetHandle = e'.targetHandle ∧
  e.isFeedback = e'.isFeedback ∧
  (isFeedbackEdge e = false → e.source = e'.source)

/-- C2 witness edges: a feedback self-loop on `rotate-1` plus the sink
edge. -/
def c2edges : List IREdge :=
  [⟨"f1", "rotate-1", "rotate-1", none, none, some true⟩,
   ⟨"e2", "rotate-1", "out-1", none, none, none⟩]

/-- The same edges with the feedback edge retargeted to a nonexistent
nominal source. -/
def c2edges' : List IREdge :=
  [⟨"f1", "ghost-9", "rotate-1", none, none, some true⟩,
   ⟨"e2", "rotate-1", "out-1", none, none, none⟩]

/-- C7 witness graph: two `src` sources mixed by a `blend` node with a
declared `amount` parameter. -/
def c7nodes : List IRNode :=
  [⟨"src-1", "src", [], (0, 0)⟩, ⟨"src-2", "src", [], (0, 0)⟩,
   ⟨"blend-1", "blend", [("amount", .num 3)], (0, 0)⟩]

def c7edges : List IREdge :=
  [⟨"e1", "src-1", "blend-1", none, some "input-0", none⟩,
   ⟨"e2", "src-2", "blend-1", none, some "input-1", none⟩]

/-- C10 witness graph: a sink with no `outputIndex` data key, fed by one
source. -/
def c10nodes : List IRNode :=
  [⟨"src-1", "src", [], (0, 0)⟩, ⟨"out-Z", "out", [], (0, 0)⟩]

def c10edges : List IREdge := [⟨"e1", "src-1", "out-Z", none, none, none⟩]

/-! ## Theorems -/

theorem assocGet_assocSet {α : Type} (m : List (String × α)) (k k' : String) (v : α) :
    assocGet (assocSet m k v) k' = if k = k' then some v else assocGet m k' := by
  induction m with
  | nil => by_cases h : k = k' <;> simp [assocSet, assocGet, h]
  | cons kv rest ih =>
    obtain ⟨k₀, v₀⟩ := kv
    by_cases h : k₀ = k
    · subst h
      by_cases h' : k₀ = k' <;> simp [assocSet, assocGet, h']
    · by_cases h' : k₀ = k'
      · subst h'
        rw [if_neg (fun hh => h hh.symm)]
        simp [assocSet, assocGet, h]
      · simp [assocSet, assocGet, h, h', ih]

theorem dedupeIssuesAux_subset (l : List Issue) :
    ∀ seen, ∀ i ∈ dedupeIssuesAux seen l, i ∈ l := by
  induction l with
  | nil => intro seen i hi; simp [dedupeIssuesAux] at hi
  | cons j rest ih =>
    intro seen i hi
    simp only [dedupeIssuesAux] at hi
    split at hi
    · exact List.mem_cons_of_mem _ (ih _ _ hi)
    · rcases List.mem_cons.mp hi with h | h
      · exact h ▸ List.mem_cons_self _ _
      · exact List.mem_cons_of_mem _ (ih _ _ h)

theorem dedupeIssues_subset (l : List Issue) : ∀ i ∈ dedupeIssues l, i ∈ l :=
  dedupeIssuesAux_subset l []

theorem dedupeIssuesAux_key_covered (l : List Issue) :
    ∀ seen i, i ∈ l → ¬ i.key ∈ seen →
      ∃ j ∈ dedupeIssuesAux seen l, j.key = i.key := by
  induction l with
  | nil => intro seen i hi; simp at hi
  | cons j rest ih =>
    intro seen i hi hs
    simp only [dedupeIssuesAux]
    rcases List.mem_cons.mp hi with h | h
    · subst h
      split
      · next hkey => exact absurd hkey hs
      · exact ⟨i, List.mem_cons_self _ _, rfl⟩
    · split
      · next hkey => exact ih seen i h hs
      · by_cases hk : i.key = j.key
        · exact ⟨j, List.mem_cons_self _ _, hk.symm⟩
        · obtain ⟨x, hx, hxk⟩ := ih (j.key :: seen) i h (by
            intro hmem
            rcases List.mem_cons.mp hmem with h1 | h1
            · exact hk h1
            · exact hs h1)
          exact ⟨x, List.mem_cons_of_mem _ hx, hxk⟩

theorem dedupeIssues_key_covered (l : List Issue) (i : Issue) (hi : i ∈ l) :
    ∃ j ∈ dedupeIssues l, j.key = i.key :=
  dedupeIssuesAux_key_covered l [] i hi (by simp)

theorem dedupeIssuesAux_keys_fresh (l : List Issue) :
    ∀ seen, ∀ i ∈ dedupeIssuesAux seen l, ¬ i.key ∈ seen := by
  induction l with
  | nil => intro seen i hi; simp [dedupeIssuesAux] at hi
  | cons j rest ih =>
    intro seen i hi
    simp only [dedupeIssuesAux] at hi
    split at hi
    · exact ih _ _ hi
    · rcases List.mem_cons.mp hi with h | h
      · next hkey => exact h ▸ hkey
      · intro hmem
        exact ih _ _ h (List.mem_cons_of_mem _ hmem)

theorem dedupeIssuesAux_of_fresh (l : List Issue) :
    ∀ seen, (∀ i ∈ l, ¬ i.key ∈ seen) → List.Pairwise (fun a b => a.key ≠ b.key) l →
      dedupeIssuesAux seen l = l := by
  induction l with
  | nil => intro seen _ _; simp [dedupeIssuesAux]
  | cons j rest ih =>
    intro seen hfresh hpw
    simp only [dedupeIssuesAux]
    rw [if_neg (hfresh j (List.mem_cons_self _ _))]
    congr 1
    apply ih
    · intro i hi hmem
      rcases List.mem_cons.mp hmem with h1 | h1
      · exact (List.pairwise_cons.mp hpw).1 i hi h1.symm
      · exact hfresh i (List.mem_cons_of_mem _ hi) h1
    · exact (List.pairwise_cons.mp hpw).2

theorem dedupeIssuesAux_pairwise (l : List Issue) :
    ∀ seen, List.Pairwise (fun a b => a.key ≠ b.key) (dedupeIssuesAux seen l) := by
  induction l with
  | nil => intro seen; simp [dedupeIssuesAux]
  | cons j rest ih =>
    intro seen
    simp only [dedupeIssuesAux]
    split
    · exact ih _
    · refine List.pairwise_cons.mpr ⟨?_, ih _⟩
      intro i hi h
      exact dedupeIssuesAux_keys_fresh rest (j.key :: seen) i hi
        (h ▸ List.mem_cons_self _ _)

theorem dedupeIssues_idem (l : List Issue) :
    dedupeIssues (dedupeIssues l) = dedupeIssues l := by
  apply dedupeIssuesAux_of_fresh
  · intro i _ h; simp at h
  · exact dedupeIssuesAux_pairwise l []

/-! ### Generic lemmas about `foldl`/`assocSet` map building -/

theorem assocGet_foldl_set_frame {α β : Type} (key : β → String) (g : β → α)
    (l : List β) :
    ∀ (acc : List (String × α)) (k : String), (∀ x ∈ l, key x ≠ k) →
      assocGet (l.foldl (fun m x => assocSet m (key x) (g x)) acc) k =
        assocGet acc k := by
  induction l with
  | nil => intro acc k _; simp
  | cons x xs ih =>
    intro acc k hk
    simp only [List.foldl_cons]
    rw [ih _ _ (fun y hy => hk y (List.mem_cons_of_mem _ hy))]
    rw [assocGet_assocSet]
    rw [if_neg (hk x (List.mem_cons_self _ _))]

theorem assocGet_foldl_set_sound {α β : Type} (key : β → String) (g : β → α)
    (l : List β) :
    ∀ (acc : List (String × α)) (k : String) (v : α),
      assocGet (l.foldl (fun m x => assocSet m (key x) (g x)) acc) k = some v →
      (∃ x ∈ l, key x = k ∧ g x = v) ∨ assocGet acc k = some v := by
  induction l with
  | nil => intro acc k v h; exact Or.inr h
  | cons x xs ih =>
    intro acc k v h
    simp only [List.foldl_cons] at h
    rcases ih _ _ _ h with h1 | h1
    · obtain ⟨y, hy, hk, hv⟩ := h1
      exact Or.inl ⟨y, List.mem_cons_of_mem _ hy, hk, hv⟩
    · rw [assocGet_assocSet] at h1
      by_cases hx : key x = k
      · rw [if_pos hx] at h1
        exact Or.inl ⟨x, List.mem_cons_self _ _, hx, Option.some_injective _ h1⟩
      · rw [if_neg hx] at h1
        exact Or.inr h1

theorem assocGet_foldl_set_keyed {α β : Type} (key : β → String) (f : String → α)
    (l : List β) :
    ∀ (acc : List (String × α)) (k : String), (∃ x ∈ l, key x = k) →
      assocGet (l.foldl (fun m x => assocSet m (key x) (f (key x))) acc) k =
        some (f k) := by
  induction l with
  | nil => intro acc k h; simp at h
  | cons x xs ih =>
    intro acc k h
    simp only [List.foldl_cons]
    by_cases hxs : ∃ y ∈ xs, key y = k
    · exact ih _ _ hxs
    · obtain ⟨y, hy, hk⟩ := h
      rcases List.mem_cons.mp hy with h1 | h1
      · subst h1
        rw [assocGet_foldl_set_frame key (fun x => f (key x)) xs _ _
          (fun z hz hzk => hxs ⟨z, hz, hzk⟩)]
        rw [assocGet_assocSet, if_pos hk, hk]
      · exact absurd ⟨y, h1, hk⟩ hxs

theorem assocGet_foldl_set_nodup {α β : Type} (key : β → String) (g : β → α)
    (l : List β) :
    ∀ (acc : List (String × α)) (b : β), (l.map key).Nodup → b ∈ l →
      assocGet (l.foldl (fun m x => assocSet m (key x) (g x)) acc) (key b) =
        some (g b) := by
  induction l with
  | nil => intro acc b _ hb; simp at hb
  | cons x xs ih =>
    intro acc b hnd hb
    simp only [List.foldl_cons]
    simp only [List.map_cons, List.nodup_cons] at hnd
    rcases List.mem_cons.mp hb with h1 | h1
    · subst h1
      rw [assocGet_foldl_set_frame key g xs _ _
        (fun z hz hzk => hnd.1 (by rw [← hzk]; exact List.mem_map_of_mem key hz))]
      rw [assocGet_assocSet, if_pos rfl]
    · exact ih _ _ hnd.2 h1

/-! ### `mkNodeById` -/

theorem mkNodeById_sound (nodes : List IRNode) (k : String) (n : IRNode)
    (h : assocGet (mkNodeById nodes) k = some n) : n ∈ nodes ∧ n.id = k := by
  rw [mkNodeById] at h
  rcases assocGet_foldl_set_sound (fun n => n.id) (fun n => n) nodes [] k n h with h1 | h1
  · obtain ⟨x, hx, hk, hv⟩ := h1
    exact ⟨hv ▸ hx, hv ▸ hk⟩
  · simp [assocGet] at h1

theorem assocGet_foldl_set_isSome {α β : Type} (key : β → String) (g : β → α)
    (l : List β) :
    ∀ (acc : List (String × α)) (k : String), (∃ x ∈ l, key x = k) →
      (assocGet (l.foldl (fun m x => assocSet m (key x) (g x)) acc) k).isSome := by
  induction l with
  | nil => intro acc k h; simp at h
  | cons x xs ih =>
    intro acc k h
    simp only [List.foldl_cons]
    by_cases hxs : ∃ y ∈ xs, key y = k
    · exact ih _ _ hxs
    · obtain ⟨y, hy, hk⟩ := h
      rcases List.mem_cons.mp hy with h1 | h1
      · subst h1
        rw [assocGet_foldl_set_frame key g xs _ _
          (fun z hz hzk => hxs ⟨z, hz, hzk⟩)]
        rw [assocGet_assocSet, if_pos hk]
        rfl
      · exact absurd ⟨y, h1, hk⟩ hxs

theorem mkNodeById_mem (nodes : List IRNode) (n : IRNode) (hn : n ∈ nodes) :
    ∃ m, assocGet (mkNodeById nodes) n.id = some m ∧ m ∈ nodes ∧ m.id = n.id := by
  have hsome := assocGet_foldl_set_isSome (fun x => x.id) (fun x => x) nodes []
    n.id ⟨n, hn, rfl⟩
  cases hq : assocGet (mkNodeById nodes) n.id with
  | some m => exact ⟨m, rfl, mkNodeById_sound nodes n.id m hq⟩
  | none => rw [mkNodeById] at hq; rw [hq] at hsome; simp at hsome

/-! ### Reachability: BFS soundness and monotonicity -/

theorem mem_setAdd (l : List String) (y x : String) :
    x ∈ setAdd l y ↔ x ∈ l ∨ x = y := by
  unfold setAdd
  split
  · next h => constructor
              · exact fun hx => Or.inl hx
              · rintro (hx | rfl)
                · exact hx
                · exact h
  · simp

theorem mem_foldl_setAdd {β : Type} (key : β → String) (l : List β) :
    ∀ (init : List String) (x : String),
      x ∈ l.foldl (fun acc b => setAdd acc (key b)) init ↔
        x ∈ init ∨ ∃ b ∈ l, key b = x := by
  induction l with
  | nil => intro init x; simp
  | cons b bs ih =>
    intro init x
    simp only [List.foldl_cons]
    rw [ih]
    rw [mem_setAdd]
    constructor
    · rintro ((h | h) | ⟨c, hc, hk⟩)
      · exact Or.inl h
      · exact Or.inr ⟨b, List.mem_cons_self _ _, h.symm⟩
      · exact Or.inr ⟨c, List.mem_cons_of_mem _ hc, hk⟩
    · rintro (h | ⟨c, hc, hk⟩)
      · exact Or.inl (Or.inl h)
      · rcases List.mem_cons.mp hc with h1 | h1
        · exact Or.inl (Or.inr (h1 ▸ hk.symm))
        · exact Or.inr ⟨c, h1, hk⟩

theorem bfsFold_rn_mono (l : List IREdge) :
    ∀ (acc : List String × List String × List String) (x : String),
      x ∈ acc.1 → x ∈ (l.foldl bfsFoldStep acc).1 := by
  induction l with
  | nil => intro acc x hx; exact hx
  | cons e es ih =>
    intro acc x hx
    simp only [List.foldl_cons]
    apply ih
    unfold bfsFoldStep
    split
    · exact hx
    · exact List.mem_append_left _ hx

theorem bfsFold_inv (edges : List IREdge) (R : String → Prop)
    (hR : ∀ e ∈ edges, R e.target → R e.source)
    (nodeId : String) (hn : R nodeId) (l : List IREdge)
    (hl : ∀ e ∈ l, e ∈ edges ∧ e.target = nodeId) :
    ∀ (acc : List String × List String × List String),
      (∀ x ∈ acc.1, R x) → (∀ x ∈ acc.2.2, x ∈ acc.1) →
      (∀ x ∈ (l.foldl bfsFoldStep acc).1, R x) ∧
      (∀ x ∈ (l.foldl bfsFoldStep acc).2.2, x ∈ (l.foldl bfsFoldStep acc).1) := by
  induction l with
  | nil => intro acc h1 h2; exact ⟨h1, h2⟩
  | cons e es ih =>
    intro acc h1 h2
    simp only [List.foldl_cons]
    have he := hl e (List.mem_cons_self _ _)
    have hRs : R e.source := hR e he.1 (he.2 ▸ hn)
    apply ih (fun e' he' => hl e' (List.mem_cons_of_mem _ he'))
    · intro x hx
      simp only [bfsFoldStep] at hx
      by_cases hc : e.source ∈ acc.1
      · rw [if_pos hc] at hx
        exact h1 x hx
      · rw [if_neg hc] at hx
        rcases List.mem_append.mp hx with h | h
        · exact h1 x h
        · rw [List.mem_singleton.mp h]; exact hRs
    · intro x hx
      simp only [bfsFoldStep] at hx ⊢
      by_cases hc : e.source ∈ acc.1
      · rw [if_pos hc] at hx ⊢
        exact h2 x hx
      · rw [if_neg hc] at hx ⊢
        rcases List.mem_append.mp hx with h | h
        · exact List.mem_append_left _ (h2 x h)
        · exact List.mem_append_right _ h

theorem bfsLoop_rn_mono (edges : List IREdge) :
    ∀ (fuel : Nat) (queue rn re : List String) (x : String), x ∈ rn →
      x ∈ (bfsLoop edges fuel queue rn re).1 := by
  intro fuel
  induction fuel with
  | zero => intro queue rn re x hx; exact hx
  | succ fuel ih =>
    intro queue rn re x hx
    cases queue with
    | nil => exact hx
    | cons nodeId rest =>
      simp only [bfsLoop]
      exact ih _ _ _ x (bfsFold_rn_mono _ _ x hx)

theorem bfsLoop_sound (edges : List IREdge) (R : String → Prop)
    (hR : ∀ e ∈ edges, R e.target → R e.source) :
    ∀ (fuel : Nat) (queue rn re : List String),
      (∀ x ∈ rn, R x) → (∀ x ∈ queue, x ∈ rn) →
      ∀ x ∈ (bfsLoop edges fuel queue rn re).1, R x := by
  intro fuel
  induction fuel with
  | zero => intro queue rn re h1 _ x hx; exact h1 x hx
  | succ fuel ih =>
    intro queue rn re h1 h2 x hx
    cases queue with
    | nil => exact h1 x hx
    | cons nodeId rest =>
      simp only [bfsLoop] at hx
      have hln : R nodeId := h1 nodeId (h2 nodeId (List.mem_cons_self _ _))
      have hl : ∀ e ∈ incomingEdges edges nodeId, e ∈ edges ∧ e.target = nodeId := by
        intro e he
        unfold incomingEdges at he
        have hmem := List.mem_filter.mp he
        exact ⟨hmem.1, by have := hmem.2; simpa using this⟩
      have hinv := bfsFold_inv edges R hR nodeId hln
        (incomingEdges edges nodeId) hl (rn, re, []) h1 (by intro x hx; simp at hx)
      refine ih _ _ _ hinv.1 ?_ x hx
      intro y hy
      rcases List.mem_append.mp hy with h | h
      · exact bfsFold_rn_mono _ _ y (h2 y (List.mem_cons_of_mem _ h))
      · exact hinv.2 y h

theorem computeReachability_sound (nodes : List IRNode) (edges : List IREdge) :
    ∀ x ∈ (computeReachability nodes edges).1, ReachesOut nodes edges x := by
  intro x hx
  unfold computeReachability at hx
  simp only at hx
  refine bfsLoop_sound edges (ReachesOut nodes edges)
    (fun e he ht => ReachesOut.step e he ht) _ _ _ _ ?_ ?_ x hx
  · intro y hy
    rw [mem_foldl_setAdd (fun (n : IRNode) => n.id)] at hy
    rcases hy with h | ⟨n, hn, hk⟩
    · simp at h
    · have hmem := List.mem_filter.mp hn
      have ht : n.type = "out" := by have := hmem.2; simpa using this
      exact hk ▸ ReachesOut.out n hmem.1 ht
  · intro y hy
    rw [mem_foldl_setAdd (fun (n : IRNode) => n.id)]
    rcases List.mem_map.mp hy with ⟨n, hn, hk⟩
    exact Or.inr ⟨n, hn, hk⟩

theorem computeReachability_out_mem (nodes : List IRNode) (edges : List IREdge)
    (n : IRNode) (hn : n ∈ nodes) (ht : n.type = "out") :
    n.id ∈ (computeReachability nodes edges).1 := by
  unfold computeReachability
  simp only
  apply bfsLoop_rn_mono
  rw [mem_foldl_setAdd (fun (n : IRNode) => n.id)]
  exact Or.inr ⟨n, List.mem_filter.mpr ⟨hn, by simp [ht]⟩, rfl⟩

theorem mkNodeById_nodup (nodes : List IRNode) (n : IRNode)
    (hnd : (nodes.map (fun x => x.id)).Nodup) (hn : n ∈ nodes) :
    assocGet (mkNodeById nodes) n.id = some n := by
  rw [mkNodeById]
  exact assocGet_foldl_set_nodup (fun x => x.id) (fun x => x) nodes [] n hnd hn

/-! ### More association-list and fold helpers -/

theorem assocGet_mem {α : Type} (m : List (String × α)) (k : String) (v : α)
    (h : assocGet m k = some v) : (k, v) ∈ m := by
  induction m with
  | nil => simp [assocGet] at h
  | cons kv rest ih =>
    obtain ⟨k₀, v₀⟩ := kv
    simp only [assocGet] at h
    split at h
    · next heq =>
      obtain rfl := heq
      cases h
      exact List.mem_cons_self _ _
    · exact List.mem_cons_of_mem _ (ih h)

theorem mem_assocSet {α : Type} (m : List (String × α)) (k : String) (v : α)
    (p : String × α) (h : p ∈ assocSet m k v) : p = (k, v) ∨ p ∈ m := by
  induction m with
  | nil => simpa [assocSet] using h
  | cons kv rest ih =>
    obtain ⟨k₀, v₀⟩ := kv
    simp only [assocSet] at h
    split at h
    · rcases List.mem_cons.mp h with h1 | h1
      · exact Or.inl h1
      · exact Or.inr (List.mem_cons_of_mem _ h1)
    · rcases List.mem_cons.mp h with h1 | h1
      · exact Or.inr (h1 ▸ List.mem_cons_self _ _)
      · rcases ih h1 with h2 | h2
        · exact Or.inl h2
        · exact Or.inr (List.mem_cons_of_mem _ h2)

theorem foldl_preserves {α β : Type} (P : α → Prop) (l : List β) (f : α → β → α)
    (hf : ∀ acc b, b ∈ l → P acc → P (f acc b)) :
    ∀ acc, P acc → P (l.foldl f acc) := by
  induction l with
  | nil => intro acc h; exact h
  | cons b bs ih =>
    intro acc h
    exact ih (fun acc' b' hb' => hf acc' b' (List.mem_cons_of_mem _ hb'))
      _ (hf acc b (List.mem_cons_self _ _) h)

theorem vchildStep_eq (r : VBuildResult) (acc : List Issue) :
    vchildStep r acc = acc ++ r.issuesOf := by
  cases r <;> simp [vchildStep, VBuildResult.issuesOf]

/-! ### Characters of rendered numbers; issue-key decomposition -/

theorem natCharsAux_mem (fuel : Nat) :
    ∀ (n : Nat) (c : Char), c ∈ natCharsAux fuel n →
      ∃ m, m < 10 ∧ c = Nat.digitChar m := by
  induction fuel with
  | zero => intro n c hc; simp [natCharsAux] at hc
  | succ fuel ih =>
    intro n c hc
    simp only [natCharsAux] at hc
    split at hc
    · next h => exact ⟨n, h, List.mem_singleton.mp hc⟩
    · next h =>
      rcases List.mem_append.mp hc with h1 | h1
      · exact ih _ _ h1
      · exact ⟨n % 10, Nat.mod_lt _ (by norm_num), List.mem_singleton.mp h1⟩

theorem digitChar_ne_colon : ∀ m, m < 10 → Nat.digitChar m ≠ ':' := by decide

theorem natToString_no_colon (n : Nat) : ':' ∉ (natToString n).data := by
  intro h
  obtain ⟨m, hm, hc⟩ := natCharsAux_mem (n + 1) n ':' h
  exact digitChar_ne_colon m hm hc.symm

theorem natToString_ne_nil (n : Nat) : (natToString n).data ≠ [] := by
  show natCharsAux (n + 1) n ≠ []
  simp only [natCharsAux]
  split
  · simp
  · simp

theorem intToString_no_colon (i : Int) : ':' ∉ (intToString i).data := by
  unfold intToString
  split
  · rw [String.data_append]
    intro h
    rcases List.mem_append.mp h with h1 | h1
    · revert h1
      decide
    · exact natToString_no_colon _ h1
  · exact natToString_no_colon _

theorem intToString_ne_nil (i : Int) : (intToString i).data ≠ [] := by
  unfold intToString
  split
  · rw [String.data_append]
    intro h
    exact absurd (List.append_eq_nil.mp h).1 (by decide)
  · exact natToString_ne_nil _

theorem ratToString_no_colon (q : ℚ) : ':' ∉ (ratToString q).data := by
  unfold ratToString
  split
  · exact intToString_no_colon _
  · rw [String.data_append, String.data_append]
    intro h
    rcases List.mem_append.mp h with h1 | h1
    · rcases List.mem_append.mp h1 with h2 | h2
      · exact intToString_no_colon _ h2
      · revert h2; decide
    · exact natToString_no_colon _ h1

theorem ratToString_ne_nil (q : ℚ) : (ratToString q).data ≠ [] := by
  unfold ratToString
  split
  · exact intToString_ne_nil _
  · rw [String.data_append, String.data_append]
    intro h
    have := List.append_eq_nil.mp (List.append_eq_nil.mp h).1
    exact intToString_ne_nil _ this.1

theorem colon_split_left (a1 : List Char) :
    ∀ (a2 b1 b2 : List Char), ':' ∉ a1 → ':' ∉ a2 →
      a1 ++ ':' :: b1 = a2 ++ ':' :: b2 → a1 = a2 ∧ b1 = b2 := by
  induction a1 with
  | nil =>
    intro a2 b1 b2 _ h2 h
    cases a2 with
    | nil => simpa using h
    | cons x xs =>
      simp only [List.nil_append, List.cons_append, List.cons.injEq] at h
      exact absurd (h.1 ▸ List.mem_cons_self x xs) h2
  | cons x xs ih =>
    intro a2 b1 b2 h1 h2 h
    cases a2 with
    | nil =>
      simp only [List.cons_append, List.nil_append, List.cons.injEq] at h
      exact absurd (h.1 ▸ List.mem_cons_self x xs) h1
    | cons y ys =>
      simp only [List.cons_append, List.cons.injEq] at h
      obtain ⟨rfl, h⟩ := h
      have := ih ys b1 b2 (fun hm => h1 (List.mem_cons_of_mem _ hm))
        (fun hm => h2 (List.mem_cons_of_mem _ hm)) h
      exact ⟨by rw [this.1], this.2⟩

theorem colon_split_right (x1 y1 x2 y2 : List Char)
    (h1 : ':' ∉ y1) (h2 : ':' ∉ y2)
    (h : x1 ++ ':' :: y1 = x2 ++ ':' :: y2) : x1 = x2 ∧ y1 = y2 := by
  have hr := congrArg List.reverse h
  simp only [List.reverse_append, List.reverse_cons] at hr
  rw [List.append_assoc, List.singleton_append, List.append_assoc,
    List.singleton_append] at hr
  have hs := colon_split_left y1.reverse y2.reverse x1.reverse x2.reverse
    (fun hm => h1 (List.mem_reverse.mp hm)) (fun hm => h2 (List.mem_reverse.mp hm)) hr
  exact ⟨List.reverse_injective hs.2, List.reverse_injective hs.1⟩

theorem issueKind_name_colon_free :
    ∀ k : IssueKind, ':' ∉ (IssueKind.name k).data := by decide

theorem issueKind_name_inj :
    ∀ k1 k2 : IssueKind, IssueKind.name k1 = IssueKind.name k2 → k1 = k2 := by
  decide

theorem makeIssueKey_fold_prefix (parts : List String) :
    ∀ init : String,
      ∃ t : List Char,
        (parts.foldl (fun acc p => acc ++ ":" ++ p) init).data = init.data ++ t := by
  induction parts with
  | nil => intro init; exact ⟨[], by simp⟩
  | cons p ps ih =>
    intro init
    obtain ⟨t, ht⟩ := ih (init ++ ":" ++ p)
    refine ⟨':' :: p.data ++ t, ?_⟩
    simp only [List.foldl_cons, ht, String.data_append]
    simp

theorem makeIssueKey_shape (kind p : String) (rest : List String) :
    ∃ r, (makeIssueKey kind (p :: rest)).data = kind.data ++ ':' :: r := by
  obtain ⟨t, ht⟩ := makeIssueKey_fold_prefix rest (kind ++ ":" ++ p)
  refine ⟨p.data ++ t, ?_⟩
  unfold makeIssueKey
  simp only [List.foldl_cons, ht, String.data_append]
  simp

theorem makeIssueKey_data_one (kind p1 : String) :
    (makeIssueKey kind [p1]).data = kind.data ++ ':' :: p1.data := by
  show ((kind ++ ":" ++ p1)).data = _
  simp [String.data_append]

theorem makeIssueKey_data_two (kind p1 p2 : String) :
    (makeIssueKey kind [p1, p2]).data =
      kind.data ++ ':' :: (p1.data ++ ':' :: p2.data) := by
  show ((kind ++ ":" ++ p1 ++ ":" ++ p2)).data = _
  simp [String.data_append]

/-- A key built as `makeIssueKey` over at least one part, with the
issue's own kind name, is `KeyShaped`. -/
theorem keyShaped_mk (i : Issue) (p : String) (rest : List String)
    (hk : i.key = makeIssueKey (IssueKind.name i.kind) (p :: rest)) :
    KeyShaped i := by
  obtain ⟨r, hr⟩ := makeIssueKey_shape (IssueKind.name i.kind) p rest
  exact ⟨r, by rw [hk, hr]⟩

/-- Two `KeyShaped` issues with the same key have the same kind. -/
theorem keyShaped_kind_eq (i j : Issue) (hi : KeyShaped i) (hj : KeyShaped j)
    (h : i.key = j.key) : i.kind = j.kind := by
  obtain ⟨r1, hr1⟩ := hi
  obtain ⟨r2, hr2⟩ := hj
  have hd : i.key.data = j.key.data := by rw [h]
  rw [hr1, hr2] at hd
  exact issueKind_name_inj _ _ (String.ext (colon_split_left _ _ _ _
    (issueKind_name_colon_free i.kind) (issueKind_name_colon_free j.kind) hd).1)

theorem validateNodeInputArity_shape (meta : TransformMeta) (node : IRNode)
    (tType : TransformKind) (inputEdges : List IREdge) :
    ∀ i ∈ validateNodeInputArity meta node tType inputEdges,
      ((i.kind = .NODE_MISSING_INPUTS ∨ i.kind = .NODE_EXTRA_INPUTS) ∧
        i.nodeId = some node.id) ∧ KeyShaped i := by
  intro i hi
  unfold validateNodeInputArity at hi
  split at hi
  · simp at hi
  · dsimp only at hi
    split at hi
    · simp at hi
    · rcases List.mem_singleton.mp hi with rfl
      refine ⟨⟨?_, rfl⟩, ?_⟩
      · split <;> simp
      · exact keyShaped_mk _ node.id [node.type, _, _] rfl

/-! ### The chain-validation invariant -/

theorem memoChainOK_set (ctx : VCtx) (memo : VMemo) (k : String)
    (r : VBuildResult) (hm : MemoChainOK ctx memo)
    (hr : ∀ i ∈ r.issuesOf, ChainIssue ctx i) :
    MemoChainOK ctx (assocSet memo k r) := by
  intro p hp
  rcases mem_assocSet memo k r p hp with h | h
  · rw [h]; exact hr
  · exact hm p h

theorem vchildFold_skip_inv (ctx : VCtx)
    (go : String → List String → VMemo → VBuildResult × VMemo)
    (newStack : List String)
    (hgo : ∀ s memo', MemoChainOK ctx memo' →
      (∀ i ∈ (go s newStack memo').1.issuesOf, ChainIssue ctx i) ∧
      MemoChainOK ctx (go s newStack memo').2)
    (l : List IREdge) :
    ∀ init : List Issue × VMemo,
      (∀ i ∈ init.1, ChainIssue ctx i) → MemoChainOK ctx init.2 →
      (∀ i ∈ (l.foldl
        (fun (acc : List Issue × VMemo) e =>
          if isFeedbackEdge e then acc
          else
            let p := go e.source newStack acc.2
            (vchildStep p.1 acc.1, p.2)) init).1, ChainIssue ctx i) ∧
      MemoChainOK ctx (l.foldl
        (fun (acc : List Issue × VMemo) e =>
          if isFeedbackEdge e then acc
          else
            let p := go e.source newStack acc.2
            (vchildStep p.1 acc.1, p.2)) init).2 := by
  induction l with
  | nil => intro init h1 h2; exact ⟨h1, h2⟩
  | cons e es ih =>
    intro init h1 h2
    simp only [List.foldl_cons]
    by_cases hf : isFeedbackEdge e
    · rw [if_pos hf]
      exact ih init h1 h2
    · rw [if_neg hf]
      have hg := hgo e.source init.2 h2
      apply ih
      · intro i hi
        rw [vchildStep_eq] at hi
        rcases List.mem_append.mp hi with h | h
        · exact h1 i h
        · exact hg.1 i h
      · exact hg.2

theorem vchildFold_all_inv (ctx : VCtx)
    (go : String → List String → VMemo → VBuildResult × VMemo)
    (newStack : List String)
    (hgo : ∀ s memo', MemoChainOK ctx memo' →
      (∀ i ∈ (go s newStack memo').1.issuesOf, ChainIssue ctx i) ∧
      MemoChainOK ctx (go s newStack memo').2)
    (l : List IREdge) :
    ∀ init : List Issue × VMemo,
      (∀ i ∈ init.1, ChainIssue ctx i) → MemoChainOK ctx init.2 →
      (∀ i ∈ (l.foldl
        (fun (acc : List Issue × VMemo) (e : IREdge) =>
          let p := go e.source newStack acc.2
          (vchildStep p.1 acc.1, p.2)) init).1, ChainIssue ctx i) ∧
      MemoChainOK ctx (l.foldl
        (fun (acc : List Issue × VMemo) (e : IREdge) =>
          let p := go e.source newStack acc.2
          (vchildStep p.1 acc.1, p.2)) init).2 := by
  induction l with
  | nil => intro init h1 h2; exact ⟨h1, h2⟩
  | cons e es ih =>
    intro init h1 h2
    simp only [List.foldl_cons]
    have hg := hgo e.source init.2 h2
    apply ih
    · intro i hi
      rw [vchildStep_eq] at hi
      rcases List.mem_append.mp hi with h | h
      · exact h1 i h
      · exact hg.1 i h
    · exact hg.2

theorem vchain_finish (ctx : VCtx) (memo' : VMemo)
    (arityIssues children1 : List Issue) (k : String)
    (hA : ∀ i ∈ arityIssues, ChainIssue ctx i)
    (hC : ∀ i ∈ children1, ChainIssue ctx i)
    (hM : MemoChainOK ctx memo') :
    (∀ i ∈ (if arityIssues ++ children1 = [] then VBuildResult.ok
        else .err (arityIssues ++ children1)).issuesOf, ChainIssue ctx i) ∧
    MemoChainOK ctx (assocSet memo' k
      (if arityIssues ++ children1 = [] then VBuildResult.ok
        else .err (arityIssues ++ children1))) := by
  have hall : ∀ i ∈ arityIssues ++ children1, ChainIssue ctx i := by
    intro i hi
    rcases List.mem_append.mp hi with h | h
    · exact hA i h
    · exact hC i h
  have hres : ∀ i ∈ (if arityIssues ++ children1 = [] then VBuildResult.ok
      else VBuildResult.err (arityIssues ++ children1)).issuesOf, ChainIssue ctx i := by
    split
    · intro i hi; simp [VBuildResult.issuesOf] at hi
    · exact hall
  exact ⟨hres, memoChainOK_set ctx memo' k _ hM hres⟩

theorem vchainBody_chainIssues (ctx : VCtx)
    (hctx : ∀ k n, assocGet ctx.nodeById k = some n → n.id = k)
    (go : String → List String → VMemo → VBuildResult × VMemo)
    (hgo : ∀ s stack' memo',
      (∀ x ∈ stack', x ∈ ctx.reachableNodes) → MemoChainOK ctx memo' →
      (∀ i ∈ (go s stack' memo').1.issuesOf, ChainIssue ctx i) ∧
      MemoChainOK ctx (go s stack' memo').2)
    (nodeId : String) (stack : List String) (memo : VMemo)
    (hstack : ∀ x ∈ stack, x ∈ ctx.reachableNodes)
    (hmemo : MemoChainOK ctx memo) :
    (∀ i ∈ (vchainBody ctx go nodeId stack memo).1.issuesOf, ChainIssue ctx i) ∧
    MemoChainOK ctx (vchainBody ctx go nodeId stack memo).2 := by
  unfold vchainBody
  by_cases hst : nodeId ∈ stack
  · rw [if_pos hst]
    refine ⟨?_, hmemo⟩
    intro i hi
    rcases List.mem_singleton.mp hi with rfl
    exact ⟨Or.inl rfl, ⟨nodeId, rfl, Or.inl (hstack _ hst)⟩,
      keyShaped_mk _ nodeId [] rfl⟩
  · rw [if_neg hst]
    cases hm : assocGet memo nodeId with
    | some r =>
      exact ⟨fun i hi => hmemo (nodeId, r) (assocGet_mem _ _ _ hm) i hi, hmemo⟩
    | none =>
      dsimp only
      cases hnode : assocGet ctx.nodeById nodeId with
      | none =>
        dsimp only
        refine ⟨?_, memoChainOK_set ctx memo nodeId _ hmemo ?_⟩ <;>
        · intro i hi
          rcases List.mem_singleton.mp hi with rfl
          exact ⟨Or.inr (Or.inl rfl), ⟨nodeId, rfl, Or.inr hnode⟩,
            keyShaped_mk _ nodeId [] rfl⟩
      | some node =>
        have hnid : node.id = nodeId := hctx _ _ hnode
        dsimp only
        by_cases hreach : nodeId ∈ ctx.reachableNodes
        · rw [if_neg (not_not_intro hreach)]
          cases hkind : assocGet ctx.meta.kindByName node.type with
          | none =>
            dsimp only
            refine ⟨?_, memoChainOK_set ctx memo nodeId _ hmemo ?_⟩ <;>
            · intro i hi
              rcases List.mem_singleton.mp hi with rfl
              exact ⟨Or.inr (Or.inr (Or.inl rfl)),
                ⟨node.id, rfl, Or.inl (hnid ▸ hreach)⟩,
                keyShaped_mk _ node.id [node.type] rfl⟩
          | some tType =>
            dsimp only
            have harity : ∀ i ∈ validateNodeInputArity ctx.meta node tType
                (incomingEdges ctx.edges node.id), ChainIssue ctx i := by
              intro i hi
              have hs := validateNodeInputArity_shape ctx.meta node tType _ i hi
              refine ⟨?_, ⟨node.id, hs.1.2, Or.inl (hnid ▸ hreach)⟩, hs.2⟩
              rcases hs.1.1 with h | h
              · exact Or.inr (Or.inr (Or.inr (Or.inl h)))
              · exact Or.inr (Or.inr (Or.inr (Or.inr h)))
            split
            · refine ⟨harity, memoChainOK_set ctx memo node.id _ hmemo harity⟩
            · have hgo' : ∀ s memo', MemoChainOK ctx memo' →
                  (∀ i ∈ (go s (node.id :: stack) memo').1.issuesOf, ChainIssue ctx i) ∧
                  MemoChainOK ctx (go s (node.id :: stack) memo').2 := by
                intro s memo' hmemo'
                apply hgo
                · intro x hx
                  rcases List.mem_cons.mp hx with h | h
                  · exact h ▸ hnid ▸ hreach
                  · exact hstack x h
                · exact hmemo'
              have hnil : ∀ i ∈ ([] : List Issue), ChainIssue ctx i := by
                intro i hi; simp at hi
              cases tType with
              | src => exact vchain_finish ctx memo _ [] node.id harity hnil hmemo
              | coord =>
                rw [if_neg (show ¬(TransformKind.coord = TransformKind.combine ∨
                  TransformKind.coord = TransformKind.combineCoord) from by simp)]
                have hfold := vchildFold_skip_inv ctx go (node.id :: stack) hgo'
                  (incomingEdges ctx.edges node.id) ([], memo) hnil hmemo
                exact vchain_finish ctx _ _ _ node.id harity hfold.1 hfold.2
              | color =>
                rw [if_neg (show ¬(TransformKind.color = TransformKind.combine ∨
                  TransformKind.color = TransformKind.combineCoord) from by simp)]
                have hfold := vchildFold_skip_inv ctx go (node.id :: stack) hgo'
                  (incomingEdges ctx.edges node.id) ([], memo) hnil hmemo
                exact vchain_finish ctx _ _ _ node.id harity hfold.1 hfold.2
              | combine =>
                rw [if_pos (show TransformKind.combine = TransformKind.combine ∨
                  TransformKind.combine = TransformKind.combineCoord from Or.inl rfl)]
                have hfold := vchildFold_all_inv ctx go (node.id :: stack) hgo'
                  (((sortByKey (fun e => e.targetHandle.getD "input-0")
                    (incomingEdges ctx.edges node.id)).filter
                      (fun e => !isFeedbackEdge e)).take 2) ([], memo) hnil hmemo
                exact vchain_finish ctx _ _ _ node.id harity hfold.1 hfold.2
              | combineCoord =>
                rw [if_pos (show TransformKind.combineCoord = TransformKind.combine ∨
                  TransformKind.combineCoord = TransformKind.combineCoord from Or.inr rfl)]
                have hfold := vchildFold_all_inv ctx go (node.id :: stack) hgo'
                  (((sortByKey (fun e => e.targetHandle.getD "input-0")
                    (incomingEdges ctx.edges node.id)).filter
                      (fun e => !isFeedbackEdge e)).take 2) ([], memo) hnil hmemo
                exact vchain_finish ctx _ _ _ node.id harity hfold.1 hfold.2
        · rw [if_pos hreach]
          exact ⟨by intro i hi; simp [VBuildResult.issuesOf] at hi,
            memoChainOK_set ctx memo nodeId _ hmemo
              (by intro i hi; simp [VBuildResult.issuesOf] at hi)⟩

/-- Keys of two `OUTPUT_INDEX_OUT_OF_RANGE` issues agree only when they
name the same node and print the same index. -/
theorem oioor_key_eq (id1 id2 : String) (v1 v2 : ℚ) (n1 n2 : Nat)
    (h : (oioorIssue id1 v1 n1).key = (oioorIssue id2 v2 n2).key) :
    id1 = id2 ∧ ratToString v1 = ratToString v2 := by
  have hd : (oioorIssue id1 v1 n1).key.data = (oioorIssue id2 v2 n2).key.data := by
    rw [h]
  show id1 = id2 ∧ _
  have h1 := makeIssueKey_data_two "OUTPUT_INDEX_OUT_OF_RANGE" id1 (ratToString v1)
  have h2 := makeIssueKey_data_two "OUTPUT_INDEX_OUT_OF_RANGE" id2 (ratToString v2)
  rw [show (oioorIssue id1 v1 n1).key
      = makeIssueKey "OUTPUT_INDEX_OUT_OF_RANGE" [id1, ratToString v1] from rfl,
    show (oioorIssue id2 v2 n2).key
      = makeIssueKey "OUTPUT_INDEX_OUT_OF_RANGE" [id2, ratToString v2] from rfl,
    h1, h2] at hd
  have hd' := List.append_cancel_left hd
  have hd'' : id1.data ++ ':' :: (ratToString v1).data
      = id2.data ++ ':' :: (ratToString v2).data := by
    exact List.cons_injective hd'
  have := colon_split_right _ _ _ _ (ratToString_no_colon v1)
    (ratToString_no_colon v2) hd''
  exact ⟨String.ext this.1, String.ext this.2⟩

theorem validateNodeChain_chainIssues (ctx : VCtx)
    (hctx : ∀ k n, assocGet ctx.nodeById k = some n → n.id = k) :
    ∀ (fuel : Nat) (nodeId : String) (stack : List String) (memo : VMemo),
      (∀ x ∈ stack, x ∈ ctx.reachableNodes) → MemoChainOK ctx memo →
      (∀ i ∈ (validateNodeChain ctx fuel nodeId stack memo).1.issuesOf,
        ChainIssue ctx i) ∧
      MemoChainOK ctx (validateNodeChain ctx fuel nodeId stack memo).2 := by
  intro fuel
  induction fuel with
  | zero =>
    intro nodeId stack memo _ hm
    refine ⟨?_, hm⟩
    intro i hi
    simp [validateNodeChain, VBuildResult.issuesOf] at hi
  | succ fuel ih =>
    intro nodeId stack memo hstack hmemo
    exact vchainBody_chainIssues ctx hctx (validateNodeChain ctx fuel)
      (fun s stack' memo' h1 h2 => ih s stack' memo' h1 h2)
      nodeId stack memo hstack hmemo

/-! ### Characterizing the issues `validateGraph` returns -/

theorem outputFold_mem (nodes : List IRNode) (edges : List IREdge)
    (numOutputs : Nat) :
    ∀ i ∈ (nodes.filter (fun n => n.type == "out")).foldl
      (fun acc outNode =>
        let outputIndex := outputIndexOf outNode
        let acc :=
          if outputIndexBad outputIndex numOutputs then
            acc ++ [oioorIssue outNode.id outputIndex numOutputs]
          else acc
        let inEdges := incomingEdges edges outNode.id
        if inEdges.length ≠ 1 then
          acc ++ [outputArityIssue outNode.id outputIndex inEdges.length]
        else acc) [],
      OutputCheckIssue nodes edges numOutputs i := by
  have := foldl_preserves (fun acc => ∀ i ∈ acc, OutputCheckIssue nodes edges numOutputs i)
    (nodes.filter (fun n => n.type == "out"))
    (fun acc outNode =>
      let outputIndex := outputIndexOf outNode
      let acc :=
        if outputIndexBad outputIndex numOutputs then
          acc ++ [oioorIssue outNode.id outputIndex numOutputs]
        else acc
      let inEdges := incomingEdges edges outNode.id
      if inEdges.length ≠ 1 then
        acc ++ [outputArityIssue outNode.id outputIndex inEdges.length]
      else acc) ?_ [] (by intro i hi; simp at hi)
  · exact this
  · intro acc outNode hmem hacc
    have hout := List.mem_filter.mp hmem
    have htype : outNode.type = "out" := by have := hout.2; simpa using this
    dsimp only
    intro i hi
    have step1 : ∀ j ∈ (if outputIndexBad (outputIndexOf outNode) numOutputs then
        acc ++ [oioorIssue outNode.id (outputIndexOf outNode) numOutputs] else acc),
        OutputCheckIssue nodes edges numOutputs j := by
      intro j hj
      split at hj
      · next hbad =>
        rcases List.mem_append.mp hj with h | h
        · exact hacc j h
        · rcases List.mem_singleton.mp h with rfl
          exact ⟨outNode, hout.1, htype, Or.inl ⟨rfl, hbad⟩⟩
      · exact hacc j hj
    split at hi
    · next hlen =>
      rcases List.mem_append.mp hi with h | h
      · exact step1 i h
      · rcases List.mem_singleton.mp h with rfl
        exact ⟨outNode, hout.1, htype, Or.inr ⟨rfl, hlen⟩⟩
    · exact step1 i hi

theorem dataKeyFold_mem (nodes : List IRNode) (meta : TransformMeta) :
    ∀ i ∈ nodes.foldl
      (fun acc node =>
        match assocGet meta.kindByName node.type with
        | none => acc
        | some _ =>
          let allowedKeys :=
            ((assocGet meta.paramIdsByName node.type).getD []).foldl setAdd []
          let allowedKeys :=
            if node.type == "out" then setAdd allowedKeys "outputIndex"
            else allowedKeys
          node.data.foldl
            (fun acc kv =>
              if kv.1 ∈ allowedKeys then acc
              else
                let expectedList :=
                  String.intercalate ", " (sortByKey (fun s => s) allowedKeys)
                acc ++ [unknownKeyIssue node.id kv.1 expectedList])
            acc) [],
      DataKeyIssue i := by
  have := foldl_preserves (fun acc => ∀ i ∈ acc, DataKeyIssue i) nodes
    (fun acc node =>
      match assocGet meta.kindByName node.type with
      | none => acc
      | some _ =>
        let allowedKeys :=
          ((assocGet meta.paramIdsByName node.type).getD []).foldl setAdd []
        let allowedKeys :=
          if node.type == "out" then setAdd allowedKeys "outputIndex"
          else allowedKeys
        node.data.foldl
          (fun acc kv =>
            if kv.1 ∈ allowedKeys then acc
            else
              let expectedList :=
                String.intercalate ", " (sortByKey (fun s => s) allowedKeys)
              acc ++ [unknownKeyIssue node.id kv.1 expectedList])
          acc) ?_ [] (by intro i hi; simp at hi)
  · exact this
  · intro acc node _ hacc
    cases hkind : assocGet meta.kindByName node.type with
    | none => simpa [hkind] using hacc
    | some k =>
      simp only [hkind]
      apply foldl_preserves (fun acc => ∀ i ∈ acc, DataKeyIssue i) node.data _ ?_ acc hacc
      intro acc' kv _ hacc' i hi
      split at hi
      · split at hi
        · exact hacc' i hi
        · rcases List.mem_append.mp hi with h | h
          · exact hacc' i h
          · rcases List.mem_singleton.mp h with rfl
            exact ⟨rfl, rfl, keyShaped_mk _ node.id [kv.1] rfl⟩
      · split at hi
        · exact hacc' i hi
        · rcases List.mem_append.mp hi with h | h
          · exact hacc' i h
          · rcases List.mem_singleton.mp h with rfl
            exact ⟨rfl, rfl, keyShaped_mk _ node.id [kv.1] rfl⟩

theorem sinkChainFold_inv (ctx : VCtx)
    (hctx : ∀ k n, assocGet ctx.nodeById k = some n → n.id = k)
    (edges : List IREdge) (fuel : Nat) (l : List IRNode) :
    ∀ init : List Issue × VMemo,
      (∀ i ∈ init.1, ChainIssue ctx i) → MemoChainOK ctx init.2 →
      (∀ i ∈ (l.foldl
        (fun (acc : List Issue × VMemo) outNode =>
          match incomingEdges edges outNode.id with
          | [e] =>
            let p := validateNodeChain ctx fuel e.source [] acc.2
            (vchildStep p.1 acc.1, p.2)
          | _ => acc) init).1, ChainIssue ctx i) ∧
      MemoChainOK ctx (l.foldl
        (fun (acc : List Issue × VMemo) outNode =>
          match incomingEdges edges outNode.id with
          | [e] =>
            let p := validateNodeChain ctx fuel e.source [] acc.2
            (vchildStep p.1 acc.1, p.2)
          | _ => acc) init).2 := by
  induction l with
  | nil => intro init h1 h2; exact ⟨h1, h2⟩
  | cons x xs ih =>
    intro init h1 h2
    simp only [List.foldl_cons]
    cases hie : incomingEdges edges x.id with
    | nil => exact ih init h1 h2
    | cons e rest =>
      cases rest with
      | nil =>
        simp only [hie]
        have hmaster := validateNodeChain_chainIssues ctx hctx fuel e.source []
          init.2 (by intro y hy; simp at hy) h2
        apply ih
        · intro i hi
          rw [vchildStep_eq] at hi
          rcases List.mem_append.mp hi with h | h
          · exact h1 i h
          · exact hmaster.1 i h
        · exact hmaster.2
      | cons f rest2 => exact ih init h1 h2

/-- Every issue returned by `validateGraph` is an output-check issue, a
data-key warning, or a chain-validation issue. -/
theorem validateGraph_issues_mem (nodes : List IRNode) (edges : List IREdge)
    (numOutputs : Nat) (meta : TransformMeta) :
    ∀ i ∈ (validateGraph nodes edges numOutputs meta).issues,
      OutputCheckIssue nodes edges numOutputs i ∨ DataKeyIssue i ∨
      ChainIssue ⟨meta, mkNodeById nodes, edges,
        (computeReachability nodes edges).1⟩ i := by
  intro i hi
  have hi' := dedupeIssues_subset _ i hi
  rcases List.mem_append.mp hi' with h | h
  · rcases List.mem_append.mp h with h1 | h1
    · exact Or.inl (outputFold_mem nodes edges numOutputs i h1)
    · exact Or.inr (Or.inl (dataKeyFold_mem nodes meta i h1))
  · refine Or.inr (Or.inr ?_)
    have := sinkChainFold_inv
      ⟨meta, mkNodeById nodes, edges, (computeReachability nodes edges).1⟩
      (fun k n hkn => (mkNodeById_sound nodes k n hkn).2) edges
      (chainFuel nodes) (nodes.filter (fun n => n.type == "out")) ([], [])
      (by intro j hj; simp at hj) (by intro p hp; simp at hp)
    exact this.1 i h

/-! ### Status-record lookups -/

theorem rebuild_nodeStatus (nodes : List IRNode) (edges : List IREdge)
    (issues : List Issue) (rn re : List String) (id : String)
    (hex : ∃ x ∈ nodes, x.id = id) :
    assocGet (rebuildGraphValidationResult nodes edges issues rn re).nodeStatusById
      id = some (mkNodeStatus issues rn id) := by
  unfold rebuildGraphValidationResult
  exact assocGet_foldl_set_keyed (fun node => node.id) (mkNodeStatus issues rn)
    nodes [] id hex

theorem validateGraph_nodeStatus (nodes : List IRNode) (edges : List IREdge)
    (numOutputs : Nat) (meta : TransformMeta) (n : IRNode) (hn : n ∈ nodes) :
    assocGet (validateGraph nodes edges numOutputs meta).nodeStatusById n.id =
      some (mkNodeStatus (validateGraph nodes edges numOutputs meta).issues
        (computeReachability nodes edges).1 n.id) :=
  rebuild_nodeStatus nodes edges _ _ _ n.id ⟨n, hn, rfl⟩

/-- `validateGraph` publishes the reachability sets it computed. -/
theorem validateGraph_reachableNodes (nodes : List IRNode) (edges : List IREdge)
    (numOutputs : Nat) (meta : TransformMeta) :
    (validateGraph nodes edges numOutputs meta).reachableNodes =
      (computeReachability nodes edges).1 := rfl

/-! ### Claim C3 -/

/-- C3, counterexample to the claim as stated: in the graph `c3nodes`
(one `osc` node with an unknown data key and no output sink), the node
`osc-1` is dead (`isDead = true`) yet contributes one entry to the
returned issues list — the claim's "zero entries ... including the
unknown-data-key scan" is false on the code. -/
theorem c3_dead_node_counterexample :
    ((assocGet (validateGraph c3nodes [] 4 wMeta).nodeStatusById "osc-1").map
      (fun s => s.isDead) = some true) ∧
    ((validateGraph c3nodes [] 4 wMeta).issues.filter
      (fun i => i.nodeId == some "osc-1")).length = 1 := by decide

/-- C3 (amended): for every graph, a node with no path (via incoming
edges) back to any output-sink node has `isDead = true` in its node
status, and every entry of the returned issues list attached to it is an
`UNKNOWN_NODE_DATA_KEY` warning: dead nodes are exempt from the arity,
cycle, unknown-transform and output checks, but the unknown-data-key
scan runs over all nodes of known type, dead or not. -/
theorem c3_dead_node_status (nodes : List IRNode) (edges : List IREdge)
    (numOutputs : Nat) (meta : TransformMeta) (n : IRNode) (hn : n ∈ nodes)
    (hnp : ¬ ReachesOut nodes edges n.id) :
    ((assocGet (validateGraph nodes edges numOutputs meta).nodeStatusById n.id).map
      (fun s => s.isDead) = some true) ∧
    (∀ i ∈ (validateGraph nodes edges numOutputs meta).issues,
      i.nodeId = some n.id →
        i.kind = .UNKNOWN_NODE_DATA_KEY ∧ i.severity = .warning) := by
  have hreach : ¬ n.id ∈ (computeReachability nodes edges).1 :=
    fun h => hnp (computeReachability_sound nodes edges n.id h)
  constructor
  · rw [validateGraph_nodeStatus nodes edges numOutputs meta n hn]
    simp [mkNodeStatus, hreach]
  · intro i hi hid
    rcases validateGraph_issues_mem nodes edges numOutputs meta i hi with h | h | h
    · obtain ⟨m, hm, htype, hform⟩ := h
      exfalso
      have hmid : m.id = n.id := by
        rcases hform with ⟨rfl, _⟩ | ⟨rfl, _⟩ <;>
          simpa [oioorIssue, outputArityIssue] using hid
      exact hnp (hmid ▸ ReachesOut.out m hm htype)
    · exact ⟨h.1, h.2.1⟩
    · obtain ⟨_, ⟨x, hx, hor⟩, _⟩ := h
      exfalso
      have hxn : x = n.id := by rw [hid] at hx; exact (Option.some_injective _ hx).symm
      subst hxn
      rcases hor with h1 | h1
      · exact hreach h1
      · obtain ⟨m, hm, _, _⟩ := mkNodeById_mem nodes n hn
        rw [hm] at h1
        cases h1

/-- C3 witness: the amended theorem applied to the concrete dead-node
graph. -/
theorem c3_dead_node_status_witness :
    ¬ ReachesOut c3nodes [] "osc-1" ∧
    ((assocGet (validateGraph c3nodes [] 4 wMeta).nodeStatusById "osc-1").map
      (fun s => s.isDead) = some true) ∧
    (∀ i ∈ (validateGraph c3nodes [] 4 wMeta).issues,
      i.nodeId = some "osc-1" →
        i.kind = .UNKNOWN_NODE_DATA_KEY ∧ i.severity = .warning) := by
  have hnil : ∀ x : String, ReachesOut c3nodes [] x →
      ∃ m ∈ c3nodes, m.type = "out" ∧ m.id = x := by
    intro x h
    induction h with
    | out m hm ht => exact ⟨m, hm, ht, rfl⟩
    | step e he _ _ => exact absurd he (List.not_mem_nil e)
  have hnp : ¬ ReachesOut c3nodes [] "osc-1" := by
    intro h
    obtain ⟨m, hm, ht, _⟩ := hnil _ h
    rw [show c3nodes = [⟨"osc-1", "osc", [("freq", .num 2)], (0, 0)⟩] from rfl,
      List.mem_singleton] at hm
    subst hm
    exact absurd ht (by decide)
  have h := c3_dead_node_status c3nodes [] 4 wMeta
    ⟨"osc-1", "osc", [("freq", .num 2)], (0, 0)⟩ (by decide) hnp
  exact ⟨hnp, h.1, h.2⟩

/-! ### Membership of the output-check issues in the final list -/

theorem foldl_app_mono {α β : Type} (f : List α → β → List α)
    (hf : ∀ acc b, ∃ t, f acc b = acc ++ t) (l : List β) :
    ∀ (acc : List α) (x : α), x ∈ acc → x ∈ l.foldl f acc := by
  induction l with
  | nil => intro acc x hx; exact hx
  | cons b bs ih =>
    intro acc x hx
    simp only [List.foldl_cons]
    obtain ⟨t, ht⟩ := hf acc b
    exact ih _ x (ht ▸ List.mem_append_left _ hx)

theorem outputFold_step_app (edges : List IREdge) (numOutputs : Nat) :
    ∀ (acc : List Issue) (outNode : IRNode), ∃ t,
      (let outputIndex := outputIndexOf outNode
       let acc :=
         if outputIndexBad outputIndex numOutputs then
           acc ++ [oioorIssue outNode.id outputIndex numOutputs]
         else acc
       let inEdges := incomingEdges edges outNode.id
       if inEdges.length ≠ 1 then
         acc ++ [outputArityIssue outNode.id outputIndex inEdges.length]
       else acc) = acc ++ t := by
  intro acc outNode
  dsimp only
  split <;> split
  · exact ⟨_, by rw [List.append_assoc]⟩
  · exact ⟨_, rfl⟩
  · exact ⟨_, rfl⟩
  · exact ⟨[], by rw [List.append_nil]⟩

theorem outputFold_mem_of (nodes : List IRNode) (edges : List IREdge)
    (numOutputs : Nat) (n : IRNode) (hn : n ∈ nodes) (ht : n.type = "out") :
    (outputIndexBad (outputIndexOf n) numOutputs →
      oioorIssue n.id (outputIndexOf n) numOutputs ∈
        (nodes.filter (fun n => n.type == "out")).foldl
          (fun acc outNode =>
            let outputIndex := outputIndexOf outNode
            let acc :=
              if outputIndexBad outputIndex numOutputs then
                acc ++ [oioorIssue outNode.id outputIndex numOutputs]
              else acc
            let inEdges := incomingEdges edges outNode.id
            if inEdges.length ≠ 1 then
              acc ++ [outputArityIssue outNode.id outputIndex inEdges.length]
            else acc) []) ∧
    ((incomingEdges edges n.id).length ≠ 1 →
      outputArityIssue n.id (outputIndexOf n) (incomingEdges edges n.id).length ∈
        (nodes.filter (fun n => n.type == "out")).foldl
          (fun acc outNode =>
            let outputIndex := outputIndexOf outNode
            let acc :=
              if outputIndexBad outputIndex numOutputs then
                acc ++ [oioorIssue outNode.id outputIndex numOutputs]
              else acc
            let inEdges := incomingEdges edges outNode.id
            if inEdges.length ≠ 1 then
              acc ++ [outputArityIssue outNode.id outputIndex inEdges.length]
            else acc) []) := by
  have hmem : n ∈ nodes.filter (fun n => n.type == "out") :=
    List.mem_filter.mpr ⟨hn, by simp [ht]⟩
  obtain ⟨l1, l2, hsplit⟩ := List.append_of_mem hmem
  rw [hsplit, List.foldl_append, List.foldl_cons]
  constructor
  · intro hbad
    apply foldl_app_mono _ (outputFold_step_app edges numOutputs) l2
    dsimp only
    rw [if_pos hbad]
    split
    · exact List.mem_append_left _ (List.mem_append_right _ (List.mem_singleton.mpr rfl))
    · exact List.mem_append_right _ (List.mem_singleton.mpr rfl)
  · intro hlen
    apply foldl_app_mono _ (outputFold_step_app edges numOutputs) l2
    dsimp only
    rw [if_pos hlen]
    exact List.mem_append_right _ (List.mem_singleton.mpr rfl)

theorem outputCheckIssue_keyShaped (nodes : List IRNode) (edges : List IREdge)
    (numOutputs : Nat) (i : Issue)
    (h : OutputCheckIssue nodes edges numOutputs i) : KeyShaped i := by
  obtain ⟨m, _, _, hform⟩ := h
  rcases hform with ⟨rfl, _⟩ | ⟨rfl, _⟩
  · exact keyShaped_mk _ m.id [ratToString (outputIndexOf m)] rfl
  · exact keyShaped_mk _ m.id [] rfl

theorem validateGraph_issues_keyShaped (nodes : List IRNode)
    (edges : List IREdge) (numOutputs : Nat) (meta : TransformMeta) :
    ∀ i ∈ (validateGraph nodes edges numOutputs meta).issues, KeyShaped i := by
  intro i hi
  rcases validateGraph_issues_mem nodes edges numOutputs meta i hi with h | h | h
  · exact outputCheckIssue_keyShaped nodes edges numOutputs i h
  · exact h.2.2
  · exact h.2.2

theorem validateGraph_oioor_form (nodes : List IRNode) (edges : List IREdge)
    (numOutputs : Nat) (meta : TransformMeta) (j : Issue)
    (hj : j ∈ (validateGraph nodes edges numOutputs meta).issues)
    (hkind : j.kind = .OUTPUT_INDEX_OUT_OF_RANGE) :
    ∃ m ∈ nodes, m.type = "out" ∧
      j = oioorIssue m.id (outputIndexOf m) numOutputs ∧
      outputIndexBad (outputIndexOf m) numOutputs := by
  rcases validateGraph_issues_mem nodes edges numOutputs meta j hj with h | h | h
  · obtain ⟨m, hm, htype, hform⟩ := h
    rcases hform with ⟨rfl, hbad⟩ | ⟨rfl, _⟩
    · exact ⟨m, hm, htype, rfl, hbad⟩
    · exact absurd hkind (by simp [outputArityIssue])
  · exact absurd hkind (by rw [h.1]; simp)
  · rcases h.1 with h1 | h1 | h1 | h1 | h1 <;> rw [h1] at hkind <;> cases hkind

theorem validateGraph_outputArity_form (nodes : List IRNode) (edges : List IREdge)
    (numOutputs : Nat) (meta : TransformMeta) (j : Issue)
    (hj : j ∈ (validateGraph nodes edges numOutputs meta).issues)
    (hkind : j.kind = .OUTPUT_ARITY) :
    ∃ m ∈ nodes, m.type = "out" ∧
      j = outputArityIssue m.id (outputIndexOf m) (incomingEdges edges m.id).length ∧
      (incomingEdges edges m.id).length ≠ 1 := by
  rcases validateGraph_issues_mem nodes edges numOutputs meta j hj with h | h | h
  · obtain ⟨m, hm, htype, hform⟩ := h
    rcases hform with ⟨rfl, _⟩ | ⟨rfl, hlen⟩
    · exact absurd hkind (by simp [oioorIssue])
    · exact ⟨m, hm, htype, rfl, hlen⟩
  · exact absurd hkind (by rw [h.1]; simp)
  · rcases h.1 with h1 | h1 | h1 | h1 | h1 <;> rw [h1] at hkind <;> cases hkind

theorem outputArity_key_eq (id1 id2 : String) (v1 v2 : ℚ) (c1 c2 : Nat)
    (h : (outputArityIssue id1 v1 c1).key = (outputArityIssue id2 v2 c2).key) :
    id1 = id2 := by
  have hd : (outputArityIssue id1 v1 c1).key.data
      = (outputArityIssue id2 v2 c2).key.data := by rw [h]
  rw [show (outputArityIssue id1 v1 c1).key
      = makeIssueKey "OUTPUT_ARITY" [id1] from rfl,
    show (outputArityIssue id2 v2 c2).key
      = makeIssueKey "OUTPUT_ARITY" [id2] from rfl,
    makeIssueKey_data_one, makeIssueKey_data_one] at hd
  exact String.ext (List.cons_injective (List.append_cancel_left hd))

theorem validateGraph_oioor_mem_final (nodes : List IRNode)
    (edges : List IREdge) (numOutputs : Nat) (meta : TransformMeta)
    (n : IRNode) (hn : n ∈ nodes) (ht : n.type = "out")
    (hbad : outputIndexBad (outputIndexOf n) numOutputs) :
    ∃ j ∈ (validateGraph nodes edges numOutputs meta).issues,
      j.kind = .OUTPUT_INDEX_OUT_OF_RANGE ∧ j.nodeId = some n.id ∧
      ∃ m ∈ nodes, m.id = n.id ∧
        j = oioorIssue m.id (outputIndexOf m) numOutputs := by
  have hmem0 : oioorIssue n.id (outputIndexOf n) numOutputs ∈
      outputCheckIssues nodes edges numOutputs :=
    (outputFold_mem_of nodes edges numOutputs n hn ht).1 hbad
  have hraw : oioorIssue n.id (outputIndexOf n) numOutputs ∈
      outputCheckIssues nodes edges numOutputs ++ dataKeyScanIssues nodes meta ++
      (sinkChainScan ⟨meta, mkNodeById nodes, edges,
        (computeReachability nodes edges).1⟩ (chainFuel nodes)
        (nodes.filter (fun n => n.type == "out"))).1 :=
    List.mem_append_left _ (List.mem_append_left _ hmem0)
  obtain ⟨j, hj, hkey⟩ := dedupeIssues_key_covered _ _ hraw
  have hj' : j ∈ (validateGraph nodes edges numOutputs meta).issues := hj
  have hkind : j.kind = .OUTPUT_INDEX_OUT_OF_RANGE := by
    have := keyShaped_kind_eq j (oioorIssue n.id (outputIndexOf n) numOutputs)
      (validateGraph_issues_keyShaped nodes edges numOutputs meta j hj')
      (keyShaped_mk _ n.id [ratToString (outputIndexOf n)] rfl) hkey
    simpa [oioorIssue] using this
  obtain ⟨m, hm, htype, hform, hbad'⟩ :=
    validateGraph_oioor_form nodes edges numOutputs meta j hj' hkind
  have hmid : m.id = n.id :=
    (oioor_key_eq m.id n.id (outputIndexOf m) (outputIndexOf n)
      numOutputs numOutputs (by rw [← hform]; exact hkey)).1
  refine ⟨j, hj', hkind, ?_, m, hm, hmid, hform⟩
  rw [hform]
  simp [oioorIssue, hmid]

theorem validateGraph_outputArity_mem_final (nodes : List IRNode)
    (edges : List IREdge) (numOutputs : Nat) (meta : TransformMeta)
    (n : IRNode) (hn : n ∈ nodes) (ht : n.type = "out")
    (hlen : (incomingEdges edges n.id).length ≠ 1) :
    ∃ j ∈ (validateGraph nodes edges numOutputs meta).issues,
      j.kind = .OUTPUT_ARITY ∧ j.nodeId = some n.id := by
  have hmem0 : outputArityIssue n.id (outputIndexOf n)
      (incomingEdges edges n.id).length ∈
      outputCheckIssues nodes edges numOutputs :=
    (outputFold_mem_of nodes edges numOutputs n hn ht).2 hlen
  have hraw : outputArityIssue n.id (outputIndexOf n)
      (incomingEdges edges n.id).length ∈
      outputCheckIssues nodes edges numOutputs ++ dataKeyScanIssues nodes meta ++
      (sinkChainScan ⟨meta, mkNodeById nodes, edges,
        (computeReachability nodes edges).1⟩ (chainFuel nodes)
        (nodes.filter (fun n => n.type == "out"))).1 :=
    List.mem_append_left _ (List.mem_append_left _ hmem0)
  obtain ⟨j, hj, hkey⟩ := dedupeIssues_key_covered _ _ hraw
  have hj' : j ∈ (validateGraph nodes edges numOutputs meta).issues := hj
  have hkind : j.kind = .OUTPUT_ARITY := by
    have := keyShaped_kind_eq j
      (outputArityIssue n.id (outputIndexOf n) (incomingEdges edges n.id).length)
      (validateGraph_issues_keyShaped nodes edges numOutputs meta j hj')
      (keyShaped_mk _ n.id [] rfl) hkey
    simpa [outputArityIssue] using this
  obtain ⟨m, hm, htype, hform, hlen'⟩ :=
    validateGraph_outputArity_form nodes edges numOutputs meta j hj' hkind
  have hmid : m.id = n.id :=
    outputArity_key_eq m.id n.id (outputIndexOf m) (outputIndexOf n) _ _
      (by rw [← hform]; exact hkey)
  refine ⟨j, hj', hkind, ?_⟩
  rw [hform]
  simp [outputArityIssue, hmid]

/-! ### Claim C9 -/

/-- C9: every node of type `out` is seeded into the backward
reachability traversal, so each output sink is in `reachableNodes` and
its status has `isDead = false` — and even a sink with a bad output
index or without exactly one incoming edge (in particular one with no
incident edges at all) still receives the output-index and output-arity
checks. -/
theorem c9_out_nodes_always_live (nodes : List IRNode) (edges : List IREdge)
    (numOutputs : Nat) (meta : TransformMeta)
    (n : IRNode) (hn : n ∈ nodes) (ht : n.type = "out") :
    n.id ∈ (validateGraph nodes edges numOutputs meta).reachableNodes ∧
    ((assocGet (validateGraph nodes edges numOutputs meta).nodeStatusById n.id).map
      (fun s => s.isDead) = some false) ∧
    (outputIndexBad (outputIndexOf n) numOutputs →
      ∃ j ∈ (validateGraph nodes edges numOutputs meta).issues,
        j.kind = .OUTPUT_INDEX_OUT_OF_RANGE ∧ j.nodeId = some n.id) ∧
    ((incomingEdges edges n.id).length ≠ 1 →
      ∃ j ∈ (validateGraph nodes edges numOutputs meta).issues,
        j.kind = .OUTPUT_ARITY ∧ j.nodeId = some n.id) := by
  have hreach := computeReachability_out_mem nodes edges n hn ht
  refine ⟨?_, ?_, ?_, ?_⟩
  · rw [validateGraph_reachableNodes]
    exact hreach
  · rw [validateGraph_nodeStatus nodes edges numOutputs meta n hn]
    simp [mkNodeStatus, hreach]
  · intro hbad
    obtain ⟨j, hj, hkind, hnid, _⟩ :=
      validateGraph_oioor_mem_final nodes edges numOutputs meta n hn ht hbad
    exact ⟨j, hj, hkind, hnid⟩
  · intro hlen
    exact validateGraph_outputArity_mem_final nodes edges numOutputs meta n hn ht hlen

/-- C9 witness: a sink with no incident edges and a valid index is live
and still gets its `OUTPUT_ARITY` check. -/
theorem c9_out_nodes_always_live_witness :
    "out-A" ∈ (validateGraph c9nodes [] 4 wMeta).reachableNodes ∧
    ((assocGet (validateGraph c9nodes [] 4 wMeta).nodeStatusById "out-A").map
      (fun s => s.isDead) = some false) ∧
    (∃ j ∈ (validateGraph c9nodes [] 4 wMeta).issues,
      j.kind = .OUTPUT_ARITY ∧ j.nodeId = some "out-A") := by
  have h := c9_out_nodes_always_live c9nodes [] 4 wMeta
    ⟨"out-A", "out", [("outputIndex", .num 0)], (0, 0)⟩ (by decide) rfl
  exact ⟨h.1, h.2.1, h.2.2.2 (by decide)⟩

theorem filter_eq_singleton_of_unique (l : List Issue) (P : Issue → Bool)
    (a : Issue) (hpw : List.Pairwise (fun x y => x.key ≠ y.key) l)
    (ha : a ∈ l) (hPa : P a = true)
    (huniq : ∀ x ∈ l, P x = true → x = a) :
    l.filter P = [a] := by
  induction l with
  | nil => simp at ha
  | cons x xs ih =>
    have hpw' := List.pairwise_cons.mp hpw
    rcases List.mem_cons.mp ha with rfl | hmem
    · rw [List.filter_cons_of_pos hPa]
      have hnil : xs.filter P = [] := by
        rw [List.filter_eq_nil_iff]
        intro y hy hPy
        have hya := huniq y (List.mem_cons_of_mem _ hy) hPy
        exact hpw'.1 y hy (by rw [hya])
      rw [hnil]
    · have hPx : ¬ P x = true := by
        intro hPx
        have hxa := huniq x (List.mem_cons_self _ _) hPx
        exact hpw'.1 a hmem (by rw [hxa])
      rw [List.filter_cons_of_neg (by simpa using hPx)]
      exact ih hpw'.2 hmem
        (fun y hy hPy => huniq y (List.mem_cons_of_mem _ hy) hPy)

/-! ### Claim C5 -/

/-- C5: for every output sink whose `outputIndex` is not an integer in
`[0, numOutputs)`, `validateGraph` returns exactly one
`OUTPUT_INDEX_OUT_OF_RANGE` issue for that node — namely the issue whose
severity is `error` and whose message states the literal invalid value
and the literal valid range `(0…numOutputs-1)`. -/
theorem c5_output_index_out_of_range (nodes : List IRNode) (edges : List IREdge)
    (numOutputs : Nat) (meta : TransformMeta)
    (hNodup : (nodes.map (fun x => x.id)).Nodup)
    (n : IRNode) (hn : n ∈ nodes) (ht : n.type = "out")
    (hbad : outputIndexBad (outputIndexOf n) numOutputs) :
    (validateGraph nodes edges numOutputs meta).issues.filter
      (fun i => i.kind == IssueKind.OUTPUT_INDEX_OUT_OF_RANGE &&
        i.nodeId == some n.id)
      = [oioorIssue n.id (outputIndexOf n) numOutputs] ∧
    (oioorIssue n.id (outputIndexOf n) numOutputs).severity = .error ∧
    (oioorIssue n.id (outputIndexOf n) numOutputs).message =
      "Output index " ++ ratToString (outputIndexOf n) ++ " out of range (0…"
        ++ intToString ((numOutputs : Int) - 1) ++ ")" := by
  refine ⟨?_, rfl, rfl⟩
  have hinj := List.inj_on_of_nodup_map hNodup
  have hform : ∀ x ∈ (validateGraph nodes edges numOutputs meta).issues,
      (x.kind == IssueKind.OUTPUT_INDEX_OUT_OF_RANGE &&
        x.nodeId == some n.id) = true →
      x = oioorIssue n.id (outputIndexOf n) numOutputs := by
    intro x hx hPx
    rw [Bool.and_eq_true, beq_iff_eq, beq_iff_eq] at hPx
    obtain ⟨m, hm, htype, hxform, _⟩ :=
      validateGraph_oioor_form nodes edges numOutputs meta x hx hPx.1
    have hmid : m.id = n.id := by
      have := hPx.2
      rw [hxform] at this
      simpa [oioorIssue] using this
    have hmn : m = n := hinj hm hn hmid
    rw [hxform, hmn]
  obtain ⟨j, hj, hjkind, hjnid, m, hm, hmid, hjform⟩ :=
    validateGraph_oioor_mem_final nodes edges numOutputs meta n hn ht hbad
  have hmn : m = n := hinj hm hn hmid
  have hj0 : oioorIssue n.id (outputIndexOf n) numOutputs ∈
      (validateGraph nodes edges numOutputs meta).issues := by
    have : j = oioorIssue n.id (outputIndexOf n) numOutputs := by
      rw [hjform, hmn]
    rw [← this]
    exact hj
  exact filter_eq_singleton_of_unique _ _ _
    (dedupeIssuesAux_pairwise _ []) hj0 (by simp [oioorIssue]) hform

/-- C5 witness: `numOutputs = 4`, `outputIndex = 99` yields exactly one
`OUTPUT_INDEX_OUT_OF_RANGE` issue with the exact message
`"Output index 99 out of range (0…3)"`. -/
theorem c5_output_index_out_of_range_witness :
    (validateGraph c5nodes c5edges 4 wMeta).issues.filter
      (fun i => i.kind == IssueKind.OUTPUT_INDEX_OUT_OF_RANGE &&
        i.nodeId == some "out-1")
      = [oioorIssue "out-1" 99 4] ∧
    (oioorIssue "out-1" 99 4).severity = .error ∧
    (oioorIssue "out-1" 99 4).message = "Output index 99 out of range (0…3)" := by
  have h := c5_output_index_out_of_range c5nodes c5edges 4 wMeta (by decide)
    ⟨"out-1", "out", [("outputIndex", .num 99)], (0, 0)⟩ (by decide) rfl (by decide)
  exact ⟨h.1, h.2.1, by decide⟩

/-! ### Claim C1: a feedback self-loop satisfies unary arity and breaks
cycle detection -/

theorem memoAvoids_set (nid : String) (memo : VMemo) (k : String)
    (r : VBuildResult) (hm : MemoAvoids nid memo)
    (hr : ∀ i ∈ r.issuesOf, IssueAvoids nid i) :
    MemoAvoids nid (assocSet memo k r) := by
  intro p hp
  rcases mem_assocSet memo k r p hp with h | h
  · rw [h]; exact hr
  · exact hm p h

theorem vchildFold_skip_gen (Q : Issue → Prop)
    (go : String → List String → VMemo → VBuildResult × VMemo)
    (newStack : List String)
    (hgo : ∀ s memo', (∀ p ∈ memo', ∀ i ∈ VBuildResult.issuesOf p.2, Q i) →
      (∀ i ∈ (go s newStack memo').1.issuesOf, Q i) ∧
      (∀ p ∈ (go s newStack memo').2, ∀ i ∈ VBuildResult.issuesOf p.2, Q i))
    (l : List IREdge) :
    ∀ init : List Issue × VMemo,
      (∀ i ∈ init.1, Q i) →
      (∀ p ∈ init.2, ∀ i ∈ VBuildResult.issuesOf p.2, Q i) →
      (∀ i ∈ (l.foldl
        (fun (acc : List Issue × VMemo) e =>
          if isFeedbackEdge e then acc
          else
            let p := go e.source newStack acc.2
            (vchildStep p.1 acc.1, p.2)) init).1, Q i) ∧
      (∀ p ∈ (l.foldl
        (fun (acc : List Issue × VMemo) e =>
          if isFeedbackEdge e then acc
          else
            let p := go e.source newStack acc.2
            (vchildStep p.1 acc.1, p.2)) init).2, ∀ i ∈ VBuildResult.issuesOf p.2, Q i) := by
  induction l with
  | nil => intro init h1 h2; exact ⟨h1, h2⟩
  | cons e es ih =>
    intro init h1 h2
    simp only [List.foldl_cons]
    by_cases hf : isFeedbackEdge e
    · rw [if_pos hf]
      exact ih init h1 h2
    · rw [if_neg hf]
      have hg := hgo e.source init.2 h2
      apply ih
      · intro i hi
        rw [vchildStep_eq] at hi
        rcases List.mem_append.mp hi with h | h
        · exact h1 i h
        · exact hg.1 i h
      · exact hg.2

theorem vchildFold_all_gen (Q : Issue → Prop)
    (go : String → List String → VMemo → VBuildResult × VMemo)
    (newStack : List String)
    (hgo : ∀ s memo', (∀ p ∈ memo', ∀ i ∈ VBuildResult.issuesOf p.2, Q i) →
      (∀ i ∈ (go s newStack memo').1.issuesOf, Q i) ∧
      (∀ p ∈ (go s newStack memo').2, ∀ i ∈ VBuildResult.issuesOf p.2, Q i))
    (l : List IREdge) :
    ∀ init : List Issue × VMemo,
      (∀ i ∈ init.1, Q i) →
      (∀ p ∈ init.2, ∀ i ∈ VBuildResult.issuesOf p.2, Q i) →
      (∀ i ∈ (l.foldl
        (fun (acc : List Issue × VMemo) (e : IREdge) =>
          let p := go e.source newStack acc.2
          (vchildStep p.1 acc.1, p.2)) init).1, Q i) ∧
      (∀ p ∈ (l.foldl
        (fun (acc : List Issue × VMemo) (e : IREdge) =>
          let p := go e.source newStack acc.2
          (vchildStep p.1 acc.1, p.2)) init).2, ∀ i ∈ VBuildResult.issuesOf p.2, Q i) := by
  induction l with
  | nil => intro init h1 h2; exact ⟨h1, h2⟩
  | cons e es ih =>
    intro init h1 h2
    simp only [List.foldl_cons]
    have hg := hgo e.source init.2 h2
    apply ih
    · intro i hi
      rw [vchildStep_eq] at hi
      rcases List.mem_append.mp hi with h | h
      · exact h1 i h
      · exact hg.1 i h
    · exact hg.2

theorem vchain_finish_avoids (nid : String) (memo' : VMemo)
    (arityIssues children1 : List Issue) (k : String)
    (hA : ∀ i ∈ arityIssues, IssueAvoids nid i)
    (hC : ∀ i ∈ children1, IssueAvoids nid i)
    (hM : MemoAvoids nid memo') :
    (∀ i ∈ (if arityIssues ++ children1 = [] then VBuildResult.ok
        else .err (arityIssues ++ children1)).issuesOf, IssueAvoids nid i) ∧
    MemoAvoids nid (assocSet memo' k
      (if arityIssues ++ children1 = [] then VBuildResult.ok
        else .err (arityIssues ++ children1))) := by
  have hall : ∀ i ∈ arityIssues ++ children1, IssueAvoids nid i := by
    intro i hi
    rcases List.mem_append.mp hi with h | h
    · exact hA i h
    · exact hC i h
  have hres : ∀ i ∈ (if arityIssues ++ children1 = [] then VBuildResult.ok
      else VBuildResult.err (arityIssues ++ children1)).issuesOf,
      IssueAvoids nid i := by
    split
    · intro i hi; simp [VBuildResult.issuesOf] at hi
    · exact hall
  exact ⟨hres, memoAvoids_set nid memo' k _ hM hres⟩

/-- One frame preserves `IssueAvoids` for the protected node `nstar`:
a unary node whose only incoming edge is a feedback edge with declared
arity 1 passes its own frame with no issues, and no other frame can
attach a `CYCLE` or `NODE_MISSING_INPUTS` issue to it. -/
theorem vchainBody_avoids (ctx : VCtx)
    (hctx : ∀ k n, assocGet ctx.nodeById k = some n → n.id = k)
    (nstar : IRNode) (e : IREdge)
    (hlk : assocGet ctx.nodeById nstar.id = some nstar)
    (hkind : ∃ k, assocGet ctx.meta.kindByName nstar.type = some k ∧
      (k = .coord ∨ k = .color))
    (harity : assocGet ctx.meta.arityByName nstar.type = some 1)
    (hedges : incomingEdges ctx.edges nstar.id = [e])
    (hfb : isFeedbackEdge e = true)
    (go : String → List String → VMemo → VBuildResult × VMemo)
    (hgo : ∀ s stack' memo', ¬ nstar.id ∈ stack' → MemoAvoids nstar.id memo' →
      (∀ i ∈ (go s stack' memo').1.issuesOf, IssueAvoids nstar.id i) ∧
      MemoAvoids nstar.id (go s stack' memo').2)
    (nodeId : String) (stack : List String) (memo : VMemo)
    (hst : ¬ nstar.id ∈ stack) (hmemo : MemoAvoids nstar.id memo) :
    (∀ i ∈ (vchainBody ctx go nodeId stack memo).1.issuesOf,
      IssueAvoids nstar.id i) ∧
    MemoAvoids nstar.id (vchainBody ctx go nodeId stack memo).2 := by
  unfold vchainBody
  by_cases hcyc : nodeId ∈ stack
  · rw [if_pos hcyc]
    refine ⟨?_, hmemo⟩
    intro i hi
    rcases List.mem_singleton.mp hi with rfl
    intro hid
    exfalso
    have : nodeId = nstar.id := Option.some_injective _ hid
    exact hst (this ▸ hcyc)
  · rw [if_neg hcyc]
    cases hm : assocGet memo nodeId with
    | some r =>
      exact ⟨fun i hi => hmemo (nodeId, r) (assocGet_mem _ _ _ hm) i hi, hmemo⟩
    | none =>
      dsimp only
      cases hnode : assocGet ctx.nodeById nodeId with
      | none =>
        dsimp only
        have hres : ∀ i ∈ [nodeNotFoundIssue nodeId], IssueAvoids nstar.id i := by
          intro i hi
          rcases List.mem_singleton.mp hi with rfl
          intro _
          exact ⟨by simp [nodeNotFoundIssue], by simp [nodeNotFoundIssue]⟩
        exact ⟨hres, memoAvoids_set _ memo nodeId _ hmemo hres⟩
      | some node =>
        have hnid : node.id = nodeId := hctx _ _ hnode
        dsimp only
        by_cases hreach : nodeId ∈ ctx.reachableNodes
        · rw [if_neg (not_not_intro hreach)]
          cases hkindn : assocGet ctx.meta.kindByName node.type with
          | none =>
            dsimp only
            have hres : ∀ i ∈ [unknownTransformIssue node],
                IssueAvoids nstar.id i := by
              intro i hi
              rcases List.mem_singleton.mp hi with rfl
              intro _
              exact ⟨by simp [unknownTransformIssue], by simp [unknownTransformIssue]⟩
            exact ⟨hres, memoAvoids_set _ memo nodeId _ hmemo hres⟩
          | some tType =>
            dsimp only
            by_cases hself : nodeId = nstar.id
            · -- the protected node's own frame: arity is satisfied and the
              -- only (feedback) input is skipped, so the frame returns ok
              subst hself
              have hnodeeq : node = nstar := by
                rw [hlk] at hnode
                exact (Option.some_injective _ hnode).symm
              subst hnodeeq
              obtain ⟨k, hk, hkor⟩ := hkind
              rw [hk] at hkindn
              obtain rfl := Option.some_injective _ hkindn.symm
              rw [hnid] at hedges
              rw [hedges, harity]
              have hairty0 : validateNodeInputArity ctx.meta node tType [e] = [] := by
                unfold validateNodeInputArity
                rw [harity]
                simp
              rw [hairty0]
              dsimp only
              rw [if_neg (by simp)]
              rcases hkor with rfl | rfl
              · rw [if_neg (show ¬(TransformKind.coord = TransformKind.combine ∨
                  TransformKind.coord = TransformKind.combineCoord) from by simp)]
                simp only [List.foldl_cons, List.foldl_nil, if_pos hfb]
                refine ⟨by intro i hi; simp [VBuildResult.issuesOf] at hi,
                  memoAvoids_set _ memo node.id _ hmemo
                    (by intro i hi; simp [VBuildResult.issuesOf] at hi)⟩
              · rw [if_neg (show ¬(TransformKind.color = TransformKind.combine ∨
                  TransformKind.color = TransformKind.combineCoord) from by simp)]
                simp only [List.foldl_cons, List.foldl_nil, if_pos hfb]
                refine ⟨by intro i hi; simp [VBuildResult.issuesOf] at hi,
                  memoAvoids_set _ memo node.id _ hmemo
                    (by intro i hi; simp [VBuildResult.issuesOf] at hi)⟩
            · -- any other frame: its own issues name `node.id ≠ nstar.id`,
              -- and children run with `nstar.id` still absent from the stack
              have hnotstar : ¬ node.id = nstar.id := fun h => hself (hnid ▸ h)
              have harityA : ∀ i ∈ validateNodeInputArity ctx.meta node tType
                  (incomingEdges ctx.edges node.id), IssueAvoids nstar.id i := by
                intro i hi
                intro hid
                exfalso
                have hsome := (validateNodeInputArity_shape ctx.meta node tType _ i hi).1.2
                rw [hid] at hsome
                exact hnotstar (Option.some_injective _ hsome.symm)
              split
              · exact ⟨harityA, memoAvoids_set _ memo node.id _ hmemo harityA⟩
              · have hgo' : ∀ s memo',
                    (∀ p ∈ memo', ∀ i ∈ VBuildResult.issuesOf p.2, IssueAvoids nstar.id i) →
                    (∀ i ∈ (go s (node.id :: stack) memo').1.issuesOf, IssueAvoids nstar.id i) ∧
                    (∀ p ∈ (go s (node.id :: stack) memo').2,
                      ∀ i ∈ VBuildResult.issuesOf p.2, IssueAvoids nstar.id i) := by
                  intro s memo' hmemo'
                  have := hgo s (node.id :: stack) memo' (by
                    intro hmem
                    rcases List.mem_cons.mp hmem with h1 | h1
                    · exact hnotstar h1.symm
                    · exact hst h1) hmemo'
                  exact this
                have hnil : ∀ i ∈ ([] : List Issue), IssueAvoids nstar.id i := by
                  intro i hi; simp at hi
                cases tType with
                | src => exact vchain_finish_avoids nstar.id memo _ [] node.id harityA hnil hmemo
                | coord =>
                  rw [if_neg (show ¬(TransformKind.coord = TransformKind.combine ∨
                    TransformKind.coord = TransformKind.combineCoord) from by simp)]
                  have hfold := vchildFold_skip_gen (IssueAvoids nstar.id) go
                    (node.id :: stack) hgo' (incomingEdges ctx.edges node.id)
                    ([], memo) hnil hmemo
                  exact vchain_finish_avoids nstar.id _ _ _ node.id harityA hfold.1 hfold.2
                | color =>
                  rw [if_neg (show ¬(TransformKind.color = TransformKind.combine ∨
                    TransformKind.color = TransformKind.combineCoord) from by simp)]
                  have hfold := vchildFold_skip_gen (IssueAvoids nstar.id) go
                    (node.id :: stack) hgo' (incomingEdges ctx.edges node.id)
                    ([], memo) hnil hmemo
                  exact vchain_finish_avoids nstar.id _ _ _ node.id harityA hfold.1 hfold.2
                | combine =>
                  rw [if_pos (show TransformKind.combine = TransformKind.combine ∨
                    TransformKind.combine = TransformKind.combineCoord from Or.inl rfl)]
                  have hfold := vchildFold_all_gen (IssueAvoids nstar.id) go
                    (node.id :: stack) hgo'
                    (((sortByKey (fun e => e.targetHandle.getD "input-0")
                      (incomingEdges ctx.edges node.id)).filter
                        (fun e => !isFeedbackEdge e)).take 2) ([], memo) hnil hmemo
                  exact vchain_finish_avoids nstar.id _ _ _ node.id harityA hfold.1 hfold.2
                | combineCoord =>
                  rw [if_pos (show TransformKind.combineCoord = TransformKind.combine ∨
                    TransformKind.combineCoord = TransformKind.combineCoord from Or.inr rfl)]
                  have hfold := vchildFold_all_gen (IssueAvoids nstar.id) go
                    (node.id :: stack) hgo'
                    (((sortByKey (fun e => e.targetHandle.getD "input-0")
                      (incomingEdges ctx.edges node.id)).filter
                        (fun e => !isFeedbackEdge e)).take 2) ([], memo) hnil hmemo
                  exact vchain_finish_avoids nstar.id _ _ _ node.id harityA hfold.1 hfold.2
        · rw [if_pos hreach]
          exact ⟨by intro i hi; simp [VBuildResult.issuesOf] at hi,
            memoAvoids_set _ memo nodeId _ hmemo
              (by intro i hi; simp [VBuildResult.issuesOf] at hi)⟩

theorem validateNodeChain_avoids (ctx : VCtx)
    (hctx : ∀ k n, assocGet ctx.nodeById k = some n → n.id = k)
    (nstar : IRNode) (e : IREdge)
    (hlk : assocGet ctx.nodeById nstar.id = some nstar)
    (hkind : ∃ k, assocGet ctx.meta.kindByName nstar.type = some k ∧
      (k = .coord ∨ k = .color))
    (harity : assocGet ctx.meta.arityByName nstar.type = some 1)
    (hedges : incomingEdges ctx.edges nstar.id = [e])
    (hfb : isFeedbackEdge e = true) :
    ∀ (fuel : Nat) (nodeId : String) (stack : List String) (memo : VMemo),
      ¬ nstar.id ∈ stack → MemoAvoids nstar.id memo →
      (∀ i ∈ (validateNodeChain ctx fuel nodeId stack memo).1.issuesOf,
        IssueAvoids nstar.id i) ∧
      MemoAvoids nstar.id (validateNodeChain ctx fuel nodeId stack memo).2 := by
  intro fuel
  induction fuel with
  | zero =>
    intro nodeId stack memo _ hm
    refine ⟨?_, hm⟩
    intro i hi
    simp [validateNodeChain, VBuildResult.issuesOf] at hi
  | succ fuel ih =>
    intro nodeId stack memo hstack hmemo
    exact vchainBody_avoids ctx hctx nstar e hlk hkind harity hedges hfb
      (validateNodeChain ctx fuel)
      (fun s stack' memo' h1 h2 => ih s stack' memo' h1 h2)
      nodeId stack memo hstack hmemo

theorem sinkChainFold_avoids (ctx : VCtx)
    (hctx : ∀ k n, assocGet ctx.nodeById k = some n → n.id = k)
    (nstar : IRNode) (e : IREdge)
    (hlk : assocGet ctx.nodeById nstar.id = some nstar)
    (hkind : ∃ k, assocGet ctx.meta.kindByName nstar.type = some k ∧
      (k = .coord ∨ k = .color))
    (harity : assocGet ctx.meta.arityByName nstar.type = some 1)
    (hedges : incomingEdges ctx.edges nstar.id = [e])
    (hfb : isFeedbackEdge e = true)
    (fuel : Nat) (l : List IRNode) :
    ∀ init : List Issue × VMemo,
      (∀ i ∈ init.1, IssueAvoids nstar.id i) → MemoAvoids nstar.id init.2 →
      (∀ i ∈ (l.foldl
        (fun (acc : List Issue × VMemo) outNode =>
          match incomingEdges ctx.edges outNode.id with
          | [e] =>
            let p := validateNodeChain ctx fuel e.source [] acc.2
            (vchildStep p.1 acc.1, p.2)
          | _ => acc) init).1, IssueAvoids nstar.id i) ∧
      MemoAvoids nstar.id (l.foldl
        (fun (acc : List Issue × VMemo) outNode =>
          match incomingEdges ctx.edges outNode.id with
          | [e] =>
            let p := validateNodeChain ctx fuel e.source [] acc.2
            (vchildStep p.1 acc.1, p.2)
          | _ => acc) init).2 := by
  induction l with
  | nil => intro init h1 h2; exact ⟨h1, h2⟩
  | cons x xs ih =>
    intro init h1 h2
    simp only [List.foldl_cons]
    cases hie : incomingEdges ctx.edges x.id with
    | nil => exact ih init h1 h2
    | cons f rest =>
      cases rest with
      | nil =>
        simp only [hie]
        have hmaster := validateNodeChain_avoids ctx hctx nstar e hlk hkind
          harity hedges hfb fuel f.source [] init.2 (by simp) h2
        apply ih
        · intro i hi
          rw [vchildStep_eq] at hi
          rcases List.mem_append.mp hi with h | h
          · exact h1 i h
          · exact hmaster.1 i h
        · exact hmaster.2
      | cons g rest2 => exact ih init h1 h2

/-- C1: in every graph in which a unary-kind node's only incoming edge
is a direct self-loop marked `isFeedback`, `validateGraph` reports zero
`CYCLE` issues and zero `NODE_MISSING_INPUTS` issues for that node: the
feedback edge counts toward the declared arity of 1, and feedback edges
are never pushed onto the recursion stack. -/
theorem c1_feedback_self_loop_clean (nodes : List IRNode) (edges : List IREdge)
    (numOutputs : Nat) (meta : TransformMeta)
    (hNodup : (nodes.map (fun x => x.id)).Nodup)
    (n : IRNode) (hn : n ∈ nodes)
    (hkind : ∃ k, assocGet meta.kindByName n.type = some k ∧
      (k = .coord ∨ k = .color))
    (harity : assocGet meta.arityByName n.type = some 1)
    (e : IREdge) (hedges : incomingEdges edges n.id = [e])
    (hsrc : e.source = n.id) (hfb : isFeedbackEdge e = true) :
    ∀ i ∈ (validateGraph nodes edges numOutputs meta).issues,
      i.nodeId = some n.id →
        ¬ i.kind = .CYCLE ∧ ¬ i.kind = .NODE_MISSING_INPUTS := by
  intro i hi hid
  have hi' := dedupeIssues_subset _ i hi
  rcases List.mem_append.mp hi' with h | h
  · rcases List.mem_append.mp h with h1 | h1
    · obtain ⟨m, _, _, hform⟩ := outputFold_mem nodes edges numOutputs i h1
      rcases hform with ⟨rfl, _⟩ | ⟨rfl, _⟩
      · exact ⟨by simp [oioorIssue], by simp [oioorIssue]⟩
      · exact ⟨by simp [outputArityIssue], by simp [outputArityIssue]⟩
    · have hdk := dataKeyFold_mem nodes meta i h1
      exact ⟨by rw [hdk.1]; simp, by rw [hdk.1]; simp⟩
  · have hfold := sinkChainFold_avoids
      ⟨meta, mkNodeById nodes, edges, (computeReachability nodes edges).1⟩
      (fun k m hkm => (mkNodeById_sound nodes k m hkm).2) n e
      (mkNodeById_nodup nodes n hNodup hn) hkind harity hedges hfb
      (chainFuel nodes) (nodes.filter (fun n => n.type == "out")) ([], [])
      (by intro j hj; simp at hj) (by intro p hp; simp at hp)
    exact hfold.1 i h hid

/-- C1 witness: the claim applied to the concrete self-feedback graph
from the test-suite. -/
theorem c1_feedback_self_loop_clean_witness :
    ((c1nodes.map (fun x => x.id)).Nodup ∧
     (⟨"rotate-1", "rotate", [("angle", JVal.num 1)], (0, 0)⟩ : IRNode) ∈ c1nodes ∧
     incomingEdges c1edges "rotate-1"
       = [⟨"e1", "rotate-1", "rotate-1", none, none, some true⟩] ∧
     isFeedbackEdge ⟨"e1", "rotate-1", "rotate-1", none, none, some true⟩ = true) ∧
    (∀ i ∈ (validateGraph c1nodes c1edges 4 wMeta).issues,
      i.nodeId = some "rotate-1" →
        ¬ i.kind = .CYCLE ∧ ¬ i.kind = .NODE_MISSING_INPUTS) :=
  ⟨⟨by decide, by decide, by decide, by decide⟩,
   c1_feedback_self_loop_clean c1nodes c1edges 4 wMeta (by decide)
     ⟨"rotate-1", "rotate", [("angle", JVal.num 1)], (0, 0)⟩ (by decide)
     ⟨.coord, rfl, Or.inl rfl⟩ rfl
     ⟨"e1", "rotate-1", "rotate-1", none, none, some true⟩ (by decide) rfl rfl⟩

/-! ### Claim C6: arity boundary behaviour of a validated node -/

/-- C6: for a live node of known kind reached by the chain validator
(not on the recursion stack, not yet memoized), with declared arity `w`
and incoming edges counted with feedback edges included:
(a) exactly `w` incoming edges (in particular a binary node with exactly
    2, any forward/feedback mix) yield no arity issue;
(b) fewer than `w` yield exactly one `NODE_MISSING_INPUTS` issue of
    severity `error`, and the frame returns it without recursing into
    the node's inputs (the memo gains only this node's entry);
(c) more than `w` yield exactly one `NODE_EXTRA_INPUTS` issue of
    severity `warning` (never `error`), and for a binary kind the frame
    still recurses into the two slot inputs, returning the warning
    followed by the child issues. -/
theorem c6_arity_boundary (ctx : VCtx) (fuel : Nat)
    (n : IRNode) (k : TransformKind) (w : Nat)
    (stack : List String) (memo : VMemo)
    (hlk : assocGet ctx.nodeById n.id = some n)
    (hkind : assocGet ctx.meta.kindByName n.type = some k)
    (harity : assocGet ctx.meta.arityByName n.type = some w)
    (hreach : n.id ∈ ctx.reachableNodes)
    (hst : ¬ n.id ∈ stack)
    (hmm : assocGet memo n.id = none) :
    ((incomingEdges ctx.edges n.id).length = w →
      validateNodeInputArity ctx.meta n k (incomingEdges ctx.edges n.id) = []) ∧
    ((incomingEdges ctx.edges n.id).length < w →
      ∃ j, validateNodeInputArity ctx.meta n k (incomingEdges ctx.edges n.id) = [j] ∧
        j.kind = .NODE_MISSING_INPUTS ∧ j.severity = .error ∧
        validateNodeChain ctx (fuel + 1) n.id stack memo =
          (.err [j], assocSet memo n.id (.err [j]))) ∧
    (w < (incomingEdges ctx.edges n.id).length →
      ∃ j, validateNodeInputArity ctx.meta n k (incomingEdges ctx.edges n.id) = [j] ∧
        j.kind = .NODE_EXTRA_INPUTS ∧ j.severity = .warning ∧ ¬ j.severity = .error ∧
        ((k = .combine ∨ k = .combineCoord) →
          validateNodeChain ctx (fuel + 1) n.id stack memo =
            (.err (j :: ((((sortByKey (fun e => e.targetHandle.getD "input-0")
                (incomingEdges ctx.edges n.id)).filter
                  (fun e => !isFeedbackEdge e)).take 2).foldl
                (fun (acc : List Issue × VMemo) (e : IREdge) =>
                  let p := validateNodeChain ctx fuel e.source (n.id :: stack) acc.2
                  (vchildStep p.1 acc.1, p.2)) ([], memo)).1),
             assocSet ((((sortByKey (fun e => e.targetHandle.getD "input-0")
                (incomingEdges ctx.edges n.id)).filter
                  (fun e => !isFeedbackEdge e)).take 2).foldl
                (fun (acc : List Issue × VMemo) (e : IREdge) =>
                  let p := validateNodeChain ctx fuel e.source (n.id :: stack) acc.2
                  (vchildStep p.1 acc.1, p.2)) ([], memo)).2 n.id
               (.err (j :: ((((sortByKey (fun e => e.targetHandle.getD "input-0")
                (incomingEdges ctx.edges n.id)).filter
                  (fun e => !isFeedbackEdge e)).take 2).foldl
                (fun (acc : List Issue × VMemo) (e : IREdge) =>
                  let p := validateNodeChain ctx fuel e.source (n.id :: stack) acc.2
                  (vchildStep p.1 acc.1, p.2)) ([], memo)).1))))) := by
  refine ⟨?_, ?_, ?_⟩
  · intro hlen
    unfold validateNodeInputArity
    rw [harity]
    simp [hlen]
  · intro hlt
    have hne : ¬ (incomingEdges ctx.edges n.id).length = w := Nat.ne_of_lt hlt
    have harr : validateNodeInputArity ctx.meta n k (incomingEdges ctx.edges n.id) =
        [{ key := makeIssueKey IssueKind.NODE_MISSING_INPUTS.name
            [n.id, n.type, natToString w,
              natToString (incomingEdges ctx.edges n.id).length]
           kind := .NODE_MISSING_INPUTS
           severity := .error
           message := n.type ++ " expects " ++ natToString w
             ++ " input(s), found "
             ++ natToString (incomingEdges ctx.edges n.id).length
           nodeId := some n.id }] := by
      unfold validateNodeInputArity
      rw [harity]
      dsimp only
      rw [if_neg hne, if_pos hlt, if_pos hlt]
    refine ⟨_, harr, rfl, rfl, ?_⟩
    show vchainBody ctx (validateNodeChain ctx fuel) n.id stack memo = _
    unfold vchainBody
    rw [if_neg hst, hmm]
    dsimp only
    rw [hlk]
    dsimp only
    rw [if_neg (not_not_intro hreach), hkind]
    dsimp only
    rw [harity]
    dsimp only
    rw [if_pos (decide_eq_true hlt)]
    rw [harr]
  · intro hgt
    have hne : ¬ (incomingEdges ctx.edges n.id).length = w :=
      fun h => Nat.lt_irrefl w (h ▸ hgt)
    have hnlt : ¬ (incomingEdges ctx.edges n.id).length < w := Nat.lt_asymm hgt
    have harr : validateNodeInputArity ctx.meta n k (incomingEdges ctx.edges n.id) =
        [{ key := makeIssueKey IssueKind.NODE_EXTRA_INPUTS.name
            [n.id, n.type, natToString w,
              natToString (incomingEdges ctx.edges n.id).length]
           kind := .NODE_EXTRA_INPUTS
           severity := .warning
           message := n.type ++ " expects " ++ natToString w
             ++ " input(s), found "
             ++ natToString (incomingEdges ctx.edges n.id).length
           nodeId := some n.id }] := by
      unfold validateNodeInputArity
      rw [harity]
      dsimp only
      rw [if_neg hne, if_neg hnlt, if_neg hnlt]
    refine ⟨_, harr, rfl, rfl, by simp, ?_⟩
    intro hbin
    show vchainBody ctx (validateNodeChain ctx fuel) n.id stack memo = _
    unfold vchainBody
    rw [if_neg hst, hmm]
    dsimp only
    rw [hlk]
    dsimp only
    rw [if_neg (not_not_intro hreach), hkind]
    dsimp only
    rw [harity]
    dsimp only
    rw [if_neg (by rw [decide_eq_true_eq]; exact hnlt)]
    rw [if_pos hbin]
    rcases hbin with rfl | rfl
    · rw [harr]
      rfl
    · rw [harr]
      rfl

/-- C6 witness: a `blend` node (arity 2) with three incoming edges gets
exactly one `NODE_EXTRA_INPUTS` warning and its frame still validates
both slot inputs. -/
theorem c6_arity_boundary_witness :
    ∃ j, validateNodeInputArity wMeta
        ⟨"blend-1", "blend", [], (0, 0)⟩ .combine
        (incomingEdges c6edges "blend-1") = [j] ∧
      j.kind = .NODE_EXTRA_INPUTS ∧ j.severity = .warning ∧
      ¬ j.severity = .error ∧
      validateNodeChain
        ⟨wMeta, mkNodeById c6nodes, c6edges, (computeReachability c6nodes c6edges).1⟩
        7 "blend-1" [] [] =
        (.err (j :: ((((sortByKey (fun e => e.targetHandle.getD "input-0")
            (incomingEdges c6edges "blend-1")).filter
              (fun e => !isFeedbackEdge e)).take 2).foldl
            (fun (acc : List Issue × VMemo) (e : IREdge) =>
              let p := validateNodeChain
                ⟨wMeta, mkNodeById c6nodes, c6edges,
                  (computeReachability c6nodes c6edges).1⟩
                6 e.source ["blend-1"] acc.2
              (vchildStep p.1 acc.1, p.2)) ([], [])).1),
         assocSet ((((sortByKey (fun e => e.targetHandle.getD "input-0")
            (incomingEdges c6edges "blend-1")).filter
              (fun e => !isFeedbackEdge e)).take 2).foldl
            (fun (acc : List Issue × VMemo) (e : IREdge) =>
              let p := validateNodeChain
                ⟨wMeta, mkNodeById c6nodes, c6edges,
                  (computeReachability c6nodes c6edges).1⟩
                6 e.source ["blend-1"] acc.2
              (vchildStep p.1 acc.1, p.2)) ([], [])).2 "blend-1"
           (.err (j :: ((((sortByKey (fun e => e.targetHandle.getD "input-0")
            (incomingEdges c6edges "blend-1")).filter
              (fun e => !isFeedbackEdge e)).take 2).foldl
            (fun (acc : List Issue × VMemo) (e : IREdge) =>
              let p := validateNodeChain
                ⟨wMeta, mkNodeById c6nodes, c6edges,
                  (computeReachability c6nodes c6edges).1⟩
                6 e.source ["blend-1"] acc.2
              (vchildStep p.1 acc.1, p.2)) ([], [])).1))) := by
  have h := c6_arity_boundary
    ⟨wMeta, mkNodeById c6nodes, c6edges, (computeReachability c6nodes c6edges).1⟩
    6 ⟨"blend-1", "blend", [], (0, 0)⟩ .combine 2 [] []
    (by decide) rfl rfl (by decide) (by simp) rfl
  obtain ⟨j, hj1, hj2, hj3, hj4, hj5⟩ := h.2.2 (by decide)
  exact ⟨j, hj1, hj2, hj3, hj4, hj5 (Or.inl rfl)⟩


/-! ### Claim C8 -/

theorem rebuild_edgeStatus (nodes : List IRNode) (edges : List IREdge)
    (issues : List Issue) (rn re : List String) (e : IREdge)
    (hed : (edges.map (fun x => x.id)).Nodup) (he : e ∈ edges) :
    assocGet (rebuildGraphValidationResult nodes edges issues rn re).edgeStatusById
      e.id = some (mkEdgeStatus issues re
        (rebuildGraphValidationResult nodes edges issues rn re).nodeStatusById e) := by
  unfold rebuildGraphValidationResult
  dsimp only
  exact assocGet_foldl_set_nodup (fun (x : IREdge) => x.id)
    (mkEdgeStatus issues re (nodes.foldl
      (fun m (node : IRNode) => assocSet m node.id (mkNodeStatus issues rn node.id)) []))
    edges [] e hed he

/-- C8, counterexample to the claim as stated: in the graph
`c8nodes`/`c8edges` the node `blend-1` carries both an error-severity
issue and a warning-severity issue, and its status record has
`hasError = true` AND `hasWarning = true` — for node statuses an error
does not suppress the warning flag. -/
theorem c8_status_counterexample :
    (assocGet (validateGraph c8nodes c8edges 4 wMeta).nodeStatusById
      "blend-1").map (fun s => (s.hasError, s.hasWarning)) = some (true, true) := by
  decide

/-- C8 (amended): in the result of `validateGraph`, a node's status has
`hasError`/`hasWarning` each derived independently from the issues whose
`nodeId` names it (no suppression between the two flags) and `isDead`
from backward reachability; an edge's status has `hasError` derived from
its own attached issues OR inherited from its source or target node's
status, `hasWarning` likewise inherited but suppressed whenever the
edge's `hasError` is set, and `isDead` from edge reachability. -/
theorem c8_status_records (nodes : List IRNode) (edges : List IREdge)
    (numOutputs : Nat) (meta : TransformMeta) (n : IRNode) (e : IREdge)
    (hn : n ∈ nodes) (he : e ∈ edges)
    (hed : (edges.map (fun x => x.id)).Nodup) :
    ∃ sn se,
      assocGet (validateGraph nodes edges numOutputs meta).nodeStatusById n.id
        = some sn ∧
      assocGet (validateGraph nodes edges numOutputs meta).edgeStatusById e.id
        = some se ∧
      sn.hasError = hasSev .error
        (nodeIssuesFor (validateGraph nodes edges numOutputs meta).issues n.id) ∧
      sn.hasWarning = hasSev .warning
        (nodeIssuesFor (validateGraph nodes edges numOutputs meta).issues n.id) ∧
      sn.isDead = !(decide (n.id ∈ (computeReachability nodes edges).1)) ∧
      se.hasError = (hasSev .error
          (edgeIssuesFor (validateGraph nodes edges numOutputs meta).issues e.id)
        || ((assocGet (validateGraph nodes edges numOutputs meta).nodeStatusById
              e.source).map (fun s => s.hasError)).getD false
        || ((assocGet (validateGraph nodes edges numOutputs meta).nodeStatusById
              e.target).map (fun s => s.hasError)).getD false) ∧
      se.hasWarning = (!se.hasError
        && (hasSev .warning
            (edgeIssuesFor (validateGraph nodes edges numOutputs meta).issues e.id)
          || ((assocGet (validateGraph nodes edges numOutputs meta).nodeStatusById
                e.source).map (fun s => s.hasWarning)).getD false
          || ((assocGet (validateGraph nodes edges numOutputs meta).nodeStatusById
                e.target).map (fun s => s.hasWarning)).getD false)) ∧
      se.isDead = !(decide (e.id ∈ (computeReachability nodes edges).2)) := by
  refine ⟨mkNodeStatus (validateGraph nodes edges numOutputs meta).issues
      (computeReachability nodes edges).1 n.id,
    mkEdgeStatus (validateGraph nodes edges numOutputs meta).issues
      (computeReachability nodes edges).2
      (validateGraph nodes edges numOutputs meta).nodeStatusById e,
    validateGraph_nodeStatus nodes edges numOutputs meta n hn,
    rebuild_edgeStatus nodes edges _ _ _ e hed he,
    rfl, rfl, rfl, rfl, rfl, rfl⟩

/-- C8 witness: the amended status characterisation applied to the
concrete graph `c8nodes`/`c8edges` at the node `blend-1` and the edge
`e1`. -/
theorem c8_status_records_witness :
    ((⟨"blend-1", "blend", [("bogus", .num 1)], (0, 0)⟩ : IRNode) ∈ c8nodes ∧
     (⟨"e1", "osc-1", "blend-1", none, some "input-0", none⟩ : IREdge) ∈ c8edges ∧
     (c8edges.map (fun x => x.id)).Nodup) ∧
    (∃ sn se,
      assocGet (validateGraph c8nodes c8edges 4 wMeta).nodeStatusById
        (⟨"blend-1", "blend", [("bogus", .num 1)], (0, 0)⟩ : IRNode).id
        = some sn ∧
      assocGet (validateGraph c8nodes c8edges 4 wMeta).edgeStatusById
        (⟨"e1", "osc-1", "blend-1", none, some "input-0", none⟩ : IREdge).id
        = some se ∧
      sn.hasError = hasSev .error
        (nodeIssuesFor (validateGraph c8nodes c8edges 4 wMeta).issues
          (⟨"blend-1", "blend", [("bogus", .num 1)], (0, 0)⟩ : IRNode).id) ∧
      sn.hasWarning = hasSev .warning
        (nodeIssuesFor (validateGraph c8nodes c8edges 4 wMeta).issues
          (⟨"blend-1", "blend", [("bogus", .num 1)], (0, 0)⟩ : IRNode).id) ∧
      sn.isDead = !(decide ((⟨"blend-1", "blend", [("bogus", .num 1)], (0, 0)⟩ :
          IRNode).id ∈ (computeReachability c8nodes c8edges).1)) ∧
      se.hasError = (hasSev .error
          (edgeIssuesFor (validateGraph c8nodes c8edges 4 wMeta).issues
            (⟨"e1", "osc-1", "blend-1", none, some "input-0", none⟩ : IREdge).id)
        || ((assocGet (validateGraph c8nodes c8edges 4 wMeta).nodeStatusById
              (⟨"e1", "osc-1", "blend-1", none, some "input-0", none⟩ :
                IREdge).source).map (fun s => s.hasError)).getD false
        || ((assocGet (validateGraph c8nodes c8edges 4 wMeta).nodeStatusById
              (⟨"e1", "osc-1", "blend-1", none, some "input-0", none⟩ :
                IREdge).target).map (fun s => s.hasError)).getD false) ∧
      se.hasWarning = (!se.hasError
        && (hasSev .warning
            (edgeIssuesFor (validateGraph c8nodes c8edges 4 wMeta).issues
              (⟨"e1", "osc-1", "blend-1", none, some "input-0", none⟩ : IREdge).id)
          || ((assocGet (validateGraph c8nodes c8edges 4 wMeta).nodeStatusById
                (⟨"e1", "osc-1", "blend-1", none, some "input-0", none⟩ :
                  IREdge).source).map (fun s => s.hasWarning)).getD false
          || ((assocGet (validateGraph c8nodes c8edges 4 wMeta).nodeStatusById
                (⟨"e1", "osc-1", "blend-1", none, some "input-0", none⟩ :
                  IREdge).target).map (fun s => s.hasWarning)).getD false)) ∧
      se.isDead = !(decide ((⟨"e1", "osc-1", "blend-1", none, some "input-0",
          none⟩ : IREdge).id ∈ (computeReachability c8nodes c8edges).2))) :=
  ⟨⟨by decide, by decide, by decide⟩,
   c8_status_records c8nodes c8edges 4 wMeta
     ⟨"blend-1", "blend", [("bogus", .num 1)], (0, 0)⟩
     ⟨"e1", "osc-1", "blend-1", none, some "input-0", none⟩
     (by decide) (by decide) (by decide)⟩


/-! ### Claim C2 -/

theorem feedbackRetarget_isFeedback {e e' : IREdge}
    (h : FeedbackRetarget e e') : isFeedbackEdge e = isFeedbackEdge e' := by
  unfold isFeedbackEdge
  rw [h.2.2.1]

theorem forall₂_filter_congr {α : Type} {R : α → α → Prop} (p : α → Bool)
    (hp : ∀ a b, R a b → p a = p b) :
    ∀ {l l' : List α}, List.Forall₂ R l l' →
      List.Forall₂ R (l.filter p) (l'.filter p) := by
  intro l l' h
  induction h with
  | nil => exact .nil
  | cons hab hrest ih =>
    rename_i a b l₁ l₂
    rw [List.filter_cons, List.filter_cons, ← hp a b hab]
    by_cases hpa : p a = true
    · rw [if_pos hpa, if_pos hpa]
      exact .cons hab ih
    · rw [if_neg hpa, if_neg hpa]
      exact ih

theorem forall₂_find?_congr {α : Type} {R : α → α → Prop} (p : α → Bool)
    (hp : ∀ a b, R a b → p a = p b) :
    ∀ {l l' : List α}, List.Forall₂ R l l' →
      (l.find? p = none ∧ l'.find? p = none) ∨
      (∃ a b, l.find? p = some a ∧ l'.find? p = some b ∧ R a b) := by
  intro l l' h
  induction h with
  | nil => exact Or.inl ⟨rfl, rfl⟩
  | cons hab hrest ih =>
    rename_i a b l₁ l₂
    by_cases hpa : p a = true
    · exact Or.inr ⟨a, b, List.find?_cons_of_pos _ hpa,
        List.find?_cons_of_pos _ (by rw [← hp a b hab]; exact hpa), hab⟩
    · have hpb : ¬ p b = true := by rw [← hp a b hab]; exact hpa
      rw [List.find?_cons_of_neg _ hpa, List.find?_cons_of_neg _ hpb]
      exact ih

/-- Retargeting the nominal source of feedback edges never changes the
result of the chain builder: it never recurses into a feedback edge's
source. -/
theorem ebuild_retarget (nodes : List IRNode) (nbid : List (String × IRNode))
    (edges edges' : List IREdge)
    (hrel : List.Forall₂ FeedbackRetarget edges edges') :
    ∀ (fuel : Nat) (st : EngineState) (nodeId : String) (k : ℚ)
      (stack : List String) (memo : EMemo),
      buildChainValidated ⟨nodes, edges, nbid⟩ fuel st nodeId k stack memo =
        buildChainValidated ⟨nodes, edges', nbid⟩ fuel st nodeId k stack memo := by
  intro fuel
  induction fuel with
  | zero => intro st nodeId k stack memo; rfl
  | succ fuel ih =>
    intro st nodeId k stack memo
    show ebuildBody ⟨nodes, edges, nbid⟩ (buildChainValidated ⟨nodes, edges, nbid⟩ fuel)
        st nodeId k stack memo =
      ebuildBody ⟨nodes, edges', nbid⟩ (buildChainValidated ⟨nodes, edges', nbid⟩ fuel)
        st nodeId k stack memo
    unfold ebuildBody
    by_cases hst : nodeId ∈ stack
    · rw [if_pos hst, if_pos hst]
    rw [if_neg hst, if_neg hst]
    dsimp only
    cases hmm : assocGet memo nodeId with
    | some r => rfl
    | none =>
    cases hnb : assocGet nbid nodeId with
    | none => rfl
    | some node =>
    dsimp only
    by_cases hcam : (node.type == "camera") = true
    · rw [if_pos hcam, if_pos hcam]
    rw [if_neg hcam, if_neg hcam]
    cases hkind : assocGet st.meta.kindByName node.type with
    | none => rfl
    | some tType =>
    dsimp only
    have hin : List.Forall₂ FeedbackRetarget
        (edges.filter (fun e => e.target == nodeId))
        (edges'.filter (fun e => e.target == nodeId)) :=
      forall₂_filter_congr _
        (fun a b hab => by simp only [hab.1]) hrel
    cases tType with
    | src => rfl
    | coord =>
      have hfw := forall₂_filter_congr (fun (e : IREdge) => !isFeedbackEdge e)
        (fun a b hab => by simp only [feedbackRetarget_isFeedback hab]) hin
      have hfb := forall₂_filter_congr (fun (e : IREdge) => isFeedbackEdge e)
        (fun a b hab => by simp only [feedbackRetarget_isFeedback hab]) hin
      cases hA : (edges.filter (fun e => e.target == nodeId)).filter
          (fun (e : IREdge) => !isFeedbackEdge e) with
      | nil =>
        rw [hA] at hfw
        have hB := List.forall₂_nil_left_iff.mp hfw
        rw [hB]
        dsimp only
        rw [List.Forall₂.length_eq hfb]
      | cons f rest =>
        rw [hA] at hfw
        obtain ⟨f', rest', hRf, hrest, hB⟩ := List.forall₂_cons_left_iff.mp hfw
        rw [hB]
        dsimp only
        have hffb : isFeedbackEdge f = false := by
          have hf : f ∈ (edges.filter (fun e => e.target == nodeId)).filter
              (fun (e : IREdge) => !isFeedbackEdge e) := by
            rw [hA]; exact List.mem_cons_self _ _
          have h2 := (List.mem_filter.mp hf).2
          simpa using h2
        have hsrc : f.source = f'.source := hRf.2.2.2 hffb
        rw [ih st f.source k (nodeId :: stack) memo, hsrc]
    | color =>
      have hfw := forall₂_filter_congr (fun (e : IREdge) => !isFeedbackEdge e)
        (fun a b hab => by simp only [feedbackRetarget_isFeedback hab]) hin
      have hfb := forall₂_filter_congr (fun (e : IREdge) => isFeedbackEdge e)
        (fun a b hab => by simp only [feedbackRetarget_isFeedback hab]) hin
      cases hA : (edges.filter (fun e => e.target == nodeId)).filter
          (fun (e : IREdge) => !isFeedbackEdge e) with
      | nil =>
        rw [hA] at hfw
        have hB := List.forall₂_nil_left_iff.mp hfw
        rw [hB]
        dsimp only
        rw [List.Forall₂.length_eq hfb]
      | cons f rest =>
        rw [hA] at hfw
        obtain ⟨f', rest', hRf, hrest, hB⟩ := List.forall₂_cons_left_iff.mp hfw
        rw [hB]
        dsimp only
        have hffb : isFeedbackEdge f = false := by
          have hf : f ∈ (edges.filter (fun e => e.target == nodeId)).filter
              (fun (e : IREdge) => !isFeedbackEdge e) := by
            rw [hA]; exact List.mem_cons_self _ _
          have h2 := (List.mem_filter.mp hf).2
          simpa using h2
        have hsrc : f.source = f'.source := hRf.2.2.2 hffb
        rw [ih st f.source k (nodeId :: stack) memo, hsrc]
    | combine =>
      have h0 := forall₂_find?_congr
        (fun (e : IREdge) => e.targetHandle.getD "input-0" == "input-0")
        (fun a b hab => by simp only [hab.2.1]) hin
      have h1 := forall₂_find?_congr
        (fun (e : IREdge) => e.targetHandle.getD "input-0" == "input-1")
        (fun a b hab => by simp only [hab.2.1]) hin
      rcases h0 with ⟨hA0, hB0⟩ | ⟨e0, e0', hA0, hB0, hR0⟩ <;>
        rcases h1 with ⟨hA1, hB1⟩ | ⟨e1, e1', hA1, hB1, hR1⟩ <;>
        rw [hA0, hB0, hA1, hB1] <;> dsimp only
      next => rfl
      next => rfl
      rw [show isFeedbackEdge e0' = isFeedbackEdge e0 from
        (feedbackRetarget_isFeedback hR0).symm]
      rw [show isFeedbackEdge e1' = isFeedbackEdge e1 from
        (feedbackRetarget_isFeedback hR1).symm]
      by_cases hfe0 : isFeedbackEdge e0 = true
      · rw [if_pos hfe0, if_pos hfe0]
        by_cases hfe1 : isFeedbackEdge e1 = true
        · rw [if_pos hfe1, if_pos hfe1]
        · rw [if_neg hfe1, if_neg hfe1]
          have hfe1' : isFeedbackEdge e1 = false := by
            revert hfe1; cases isFeedbackEdge e1 <;> simp
          rw [hR1.2.2.2 hfe1']
          dsimp only
          rw [ih st e1'.source k (node.id :: stack) memo]
      · rw [if_neg hfe0, if_neg hfe0]
        have hfe0' : isFeedbackEdge e0 = false := by
          revert hfe0; cases isFeedbackEdge e0 <;> simp
        rw [hR0.2.2.2 hfe0']
        rw [ih st e0'.source k (node.id :: stack) memo]
        by_cases hfe1 : isFeedbackEdge e1 = true
        · rw [if_pos hfe1, if_pos hfe1]
        · rw [if_neg hfe1, if_neg hfe1]
          have hfe1' : isFeedbackEdge e1 = false := by
            revert hfe1; cases isFeedbackEdge e1 <;> simp
          rw [hR1.2.2.2 hfe1']
          rw [ih _ e1'.source k (node.id :: stack) _]
    | combineCoord =>
      have h0 := forall₂_find?_congr
        (fun (e : IREdge) => e.targetHandle.getD "input-0" == "input-0")
        (fun a b hab => by simp only [hab.2.1]) hin
      have h1 := forall₂_find?_congr
        (fun (e : IREdge) => e.targetHandle.getD "input-0" == "input-1")
        (fun a b hab => by simp only [hab.2.1]) hin
      rcases h0 with ⟨hA0, hB0⟩ | ⟨e0, e0', hA0, hB0, hR0⟩ <;>
        rcases h1 with ⟨hA1, hB1⟩ | ⟨e1, e1', hA1, hB1, hR1⟩ <;>
        rw [hA0, hB0, hA1, hB1] <;> dsimp only
      next => rfl
      next => rfl
      rw [show isFeedbackEdge e0' = isFeedbackEdge e0 from
        (feedbackRetarget_isFeedback hR0).symm]
      rw [show isFeedbackEdge e1' = isFeedbackEdge e1 from
        (feedbackRetarget_isFeedback hR1).symm]
      by_cases hfe0 : isFeedbackEdge e0 = true
      · rw [if_pos hfe0, if_pos hfe0]
        by_cases hfe1 : isFeedbackEdge e1 = true
        · rw [if_pos hfe1, if_pos hfe1]
        · rw [if_neg hfe1, if_neg hfe1]
          have hfe1' : isFeedbackEdge e1 = false := by
            revert hfe1; cases isFeedbackEdge e1 <;> simp
          rw [hR1.2.2.2 hfe1']
          dsimp only
          rw [ih st e1'.source k (node.id :: stack) memo]
      · rw [if_neg hfe0, if_neg hfe0]
        have hfe0' : isFeedbackEdge e0 = false := by
          revert hfe0; cases isFeedbackEdge e0 <;> simp
        rw [hR0.2.2.2 hfe0']
        rw [ih st e0'.source k (node.id :: stack) memo]
        by_cases hfe1 : isFeedbackEdge e1 = true
        · rw [if_pos hfe1, if_pos hfe1]
        · rw [if_neg hfe1, if_neg hfe1]
          have hfe1' : isFeedbackEdge e1 = false := by
            revert hfe1; cases isFeedbackEdge e1 <;> simp
          rw [hR1.2.2.2 hfe1']
          rw [ih _ e1'.source k (node.id :: stack) _]

/-- C2: while compiling the sink for output index `k`, a feedback-marked
input edge resolves to the chain reading the previous frame of output
`k` itself — `buildFeedbackChainForOutput` returns `src(outputs[k])`
whenever hydra is initialised, output `k` exists and the `src` generator
is available — and the builder never recurses into a feedback edge's
nominal source node: retargeting the source of every feedback edge
leaves the result of `buildChainValidated` unchanged. -/
theorem c2_feedback_previous_frame (st : EngineState) (k : ℚ) (nid : String)
    (hinit : st.hydraInit = true) (hout : outputAvailable st k)
    (hsrc : st.srcAvailable = true)
    (nodes : List IRNode) (nbid : List (String × IRNode))
    (edges edges' : List IREdge)
    (hrel : List.Forall₂ FeedbackRetarget edges edges')
    (fuel : Nat) (st' : EngineState) (nodeId : String) (stack : List String)
    (memo : EMemo) :
    buildFeedbackChainForOutput st k nid = .ok (.srcOut k) ∧
    buildChainValidated ⟨nodes, edges, nbid⟩ fuel st' nodeId k stack memo =
      buildChainValidated ⟨nodes, edges', nbid⟩ fuel st' nodeId k stack memo := by
  constructor
  · unfold buildFeedbackChainForOutput
    rw [if_neg (show ¬ ((!st.hydraInit) = true) from by rw [hinit]; decide),
      if_neg (not_not_intro hout),
      if_neg (show ¬ ((!st.srcAvailable) = true) from by rw [hsrc]; decide)]
  · exact ebuild_retarget nodes nbid edges edges' hrel fuel st' nodeId k stack memo

/-- C2 witness: with a live engine and output 1, the feedback chain for
the self-loop on `rotate-1` is `src(outputs[1])`, and retargeting that
feedback edge to the nonexistent node `ghost-9` leaves the compiled
chain untouched. -/
theorem c2_feedback_previous_frame_witness :
    (wEngine.hydraInit = true ∧ outputAvailable wEngine 1 ∧
     wEngine.srcAvailable = true ∧
     List.Forall₂ FeedbackRetarget c2edges c2edges') ∧
    (buildFeedbackChainForOutput wEngine 1 "rotate-1" = .ok (.srcOut 1) ∧
     buildChainValidated ⟨c1nodes, c2edges, mkNodeById c1nodes⟩ 6 wEngine
         "rotate-1" 1 [] [] =
       buildChainValidated ⟨c1nodes, c2edges', mkNodeById c1nodes⟩ 6 wEngine
         "rotate-1" 1 [] []) :=
  ⟨⟨rfl, by decide, rfl,
    .cons ⟨rfl, rfl, rfl, fun h => absurd h (by decide)⟩
      (.cons ⟨rfl, rfl, rfl, fun _ => rfl⟩ .nil)⟩,
   c2_feedback_previous_frame wEngine 1 "rotate-1" rfl (by decide) rfl
     c1nodes (mkNodeById c1nodes) c2edges c2edges'
     (.cons ⟨rfl, rfl, rfl, fun h => absurd h (by decide)⟩
       (.cons ⟨rfl, rfl, rfl, fun _ => rfl⟩ .nil))
     6 wEngine "rotate-1" [] []⟩

/-! ### Claim C7 -/

/-- C7: compiling a binary-kind (`combine` or `combineCoord`) node whose
two slot chains both build successfully calls the node's operation on
the slot-0 chain with the slot-1 chain as first argument, followed only
by the values of the user-declared parameters — the formal-input list
with its implicit first (chain) entry dropped — in declared order. -/
theorem c7_mixer_argument_hygiene (ctx : ECtx) (fuel : Nat)
    (st st1 st2 : EngineState) (nodeId : String) (node : IRNode)
    (tType : TransformKind) (k : ℚ) (stack : List String)
    (memo m1 m2 : EMemo) (e0 e1 : IREdge) (a b : Chain)
    (hst : nodeId ∉ stack)
    (hmm : assocGet memo nodeId = none)
    (hlk : assocGet ctx.nodeById nodeId = some node)
    (hcam : (node.type == "camera") = false)
    (hkind : assocGet st.meta.kindByName node.type = some tType)
    (hbin : tType = .combine ∨ tType = .combineCoord)
    (hE0 : (ctx.edges.filter (fun e => e.target == nodeId)).find?
      (fun e => e.targetHandle.getD "input-0" == "input-0") = some e0)
    (hE1 : (ctx.edges.filter (fun e => e.target == nodeId)).find?
      (fun e => e.targetHandle.getD "input-0" == "input-1") = some e1)
    (hfe0 : isFeedbackEdge e0 = false)
    (hfe1 : isFeedbackEdge e1 = false)
    (hA : buildChainValidated ctx fuel st e0.source k (node.id :: stack) memo
      = (.ok a, st1, m1))
    (hB : buildChainValidated ctx fuel st1 e1.source k (node.id :: stack) m1
      = (.ok b, st2, m2)) :
    buildChainValidated ctx (fuel + 1) st nodeId k stack memo =
      (.ok (.method2 a node.type b (trimUndefTail
          ((((assocGet st.meta.inputsByName node.type).getD []).drop 1).map
            (fun p => assocGet node.data p)))),
       st2,
       assocSet m2 nodeId (.ok (.method2 a node.type b (trimUndefTail
          ((((assocGet st.meta.inputsByName node.type).getD []).drop 1).map
            (fun p => assocGet node.data p)))))) := by
  show ebuildBody ctx (buildChainValidated ctx fuel) st nodeId k stack memo = _
  unfold ebuildBody
  rw [if_neg hst, hmm]
  dsimp only
  rw [hlk]
  dsimp only
  rw [if_neg (show ¬ ((node.type == "camera") = true) from by rw [hcam]; decide)]
  rw [hkind]
  dsimp only
  rcases hbin with rfl | rfl
  · dsimp only
    rw [hE0, hE1]
    dsimp only
    rw [if_neg (show ¬ (isFeedbackEdge e0 = true) from by rw [hfe0]; decide)]
    rw [hA]
    dsimp only
    rw [if_neg (show ¬ (isFeedbackEdge e1 = true) from by rw [hfe1]; decide)]
    rw [hB]
    dsimp only
    rw [if_pos (Or.inl rfl)]
  · dsimp only
    rw [hE0, hE1]
    dsimp only
    rw [if_neg (show ¬ (isFeedbackEdge e0 = true) from by rw [hfe0]; decide)]
    rw [hA]
    dsimp only
    rw [if_neg (show ¬ (isFeedbackEdge e1 = true) from by rw [hfe1]; decide)]
    rw [hB]
    dsimp only
    rw [if_pos (Or.inr rfl)]

/-- C7 witness: mixing two `src` chains through `blend` calls
`method2` with the slot-1 chain first and then only the declared
`amount` value — the implicit `color` formal is dropped. -/
theorem c7_mixer_argument_hygiene_witness :
    (("blend-1" : String) ∉ ([] : List String) ∧
     assocGet ([] : EMemo) "blend-1" = none ∧
     assocGet (ECtx.mk c7nodes c7edges (mkNodeById c7nodes)).nodeById "blend-1"
       = some ⟨"blend-1", "blend", [("amount", JVal.num 3)], (0, 0)⟩ ∧
     (((⟨"blend-1", "blend", [("amount", JVal.num 3)], (0, 0)⟩ :
        IRNode).type == "camera") = false) ∧
     assocGet wEngine.meta.kindByName "blend" = some TransformKind.combine ∧
     (TransformKind.combine = TransformKind.combine ∨
      TransformKind.combine = TransformKind.combineCoord) ∧
     ((ECtx.mk c7nodes c7edges (mkNodeById c7nodes)).edges.filter
        (fun e => e.target == "blend-1")).find?
        (fun e => e.targetHandle.getD "input-0" == "input-0")
       = some ⟨"e1", "src-1", "blend-1", none, some "input-0", none⟩ ∧
     ((ECtx.mk c7nodes c7edges (mkNodeById c7nodes)).edges.filter
        (fun e => e.target == "blend-1")).find?
        (fun e => e.targetHandle.getD "input-0" == "input-1")
       = some ⟨"e2", "src-2", "blend-1", none, some "input-1", none⟩ ∧
     isFeedbackEdge ⟨"e1", "src-1", "blend-1", none, some "input-0", none⟩ = false ∧
     isFeedbackEdge ⟨"e2", "src-2", "blend-1", none, some "input-1", none⟩ = false ∧
     buildChainValidated (ECtx.mk c7nodes c7edges (mkNodeById c7nodes)) 4 wEngine
       "src-1" 0 ["blend-1"] []
       = (.ok (.gen "src" []), wEngine, [("src-1", .ok (.gen "src" []))]) ∧
     buildChainValidated (ECtx.mk c7nodes c7edges (mkNodeById c7nodes)) 4 wEngine
       "src-2" 0 ["blend-1"] [("src-1", .ok (.gen "src" []))]
       = (.ok (.gen "src" []), wEngine,
          [("src-1", .ok (.gen "src" [])), ("src-2", .ok (.gen "src" []))])) ∧
    buildChainValidated (ECtx.mk c7nodes c7edges (mkNodeById c7nodes)) (4 + 1)
        wEngine "blend-1" 0 [] [] =
      (.ok (.method2 (.gen "src" [])
          (⟨"blend-1", "blend", [("amount", JVal.num 3)], (0, 0)⟩ : IRNode).type
          (.gen "src" []) (trimUndefTail
          ((((assocGet wEngine.meta.inputsByName
              (⟨"blend-1", "blend", [("amount", JVal.num 3)], (0, 0)⟩ :
                IRNode).type).getD []).drop 1).map
            (fun p => assocGet (⟨"blend-1", "blend", [("amount", JVal.num 3)],
              (0, 0)⟩ : IRNode).data p)))),
       wEngine,
       assocSet [("src-1", .ok (.gen "src" [])), ("src-2", .ok (.gen "src" []))]
         "blend-1"
         (.ok (.method2 (.gen "src" [])
            (⟨"blend-1", "blend", [("amount", JVal.num 3)], (0, 0)⟩ : IRNode).type
            (.gen "src" []) (trimUndefTail
            ((((assocGet wEngine.meta.inputsByName
                (⟨"blend-1", "blend", [("amount", JVal.num 3)], (0, 0)⟩ :
                  IRNode).type).getD []).drop 1).map
              (fun p => assocGet (⟨"blend-1", "blend", [("amount", JVal.num 3)],
                (0, 0)⟩ : IRNode).data p)))))) :=
  ⟨⟨by decide, rfl, by decide, by decide, by decide, Or.inl rfl,
    by decide, by decide, by decide, by decide, by decide, by decide⟩,
   c7_mixer_argument_hygiene (ECtx.mk c7nodes c7edges (mkNodeById c7nodes)) 4
     wEngine wEngine wEngine "blend-1"
     ⟨"blend-1", "blend", [("amount", JVal.num 3)], (0, 0)⟩
     TransformKind.combine 0 [] []
     [("src-1", .ok (.gen "src" []))]
     [("src-1", .ok (.gen "src" [])), ("src-2", .ok (.gen "src" []))]
     ⟨"e1", "src-1", "blend-1", none, some "input-0", none⟩
     ⟨"e2", "src-2", "blend-1", none, some "input-1", none⟩
     (.gen "src" []) (.gen "src" [])
     (by decide) rfl (by decide) (by decide) (by decide) (Or.inl rfl)
     (by decide) (by decide) (by decide) (by decide) (by decide) (by decide)⟩

/-! ### Claim C4 -/

/-- C4: with an initialised engine, if the structural validation result
contains any error-severity issue, `executeGraph` skips compilation —
no chain is built or attached, the engine state is untouched, and the
validator's result is returned verbatim; if it contains no
error-severity issue (warnings alone), `executeGraph` runs the per-sink
build-and-attach loop. -/
theorem c4_errors_skip_compilation (st : EngineState) (nodes : List IRNode)
    (edges : List IREdge)
    (hinit : st.hydraInit = true) (hisInit : st.isInitialized = true) :
    (hasSev .error (validateGraph nodes edges st.numOutputs st.meta).issues = true →
      executeGraph st nodes edges =
        (validateGraph nodes edges st.numOutputs st.meta, st, [])) ∧
    (hasSev .error (validateGraph nodes edges st.numOutputs st.meta).issues = false →
      executeGraph st nodes edges =
        (rebuildGraphValidationResult nodes edges
          (dedupeIssues ((validateGraph nodes edges st.numOutputs st.meta).issues
            ++ (compileOutputsFold st nodes edges).1))
          (validateGraph nodes edges st.numOutputs st.meta).reachableNodes
          (validateGraph nodes edges st.numOutputs st.meta).reachableEdges,
         (compileOutputsFold st nodes edges).2.1,
         (compileOutputsFold st nodes edges).2.2)) := by
  have hskip : ¬ ((!st.hydraInit || !st.isInitialized) = true) := by
    rw [hinit, hisInit]; decide
  constructor
  · intro herr
    unfold executeGraph
    dsimp only
    rw [if_pos hinit, if_neg hskip, if_pos herr]
    rw [List.append_nil]
    have hidem : dedupeIssues (validateGraph nodes edges st.numOutputs st.meta).issues
        = (validateGraph nodes edges st.numOutputs st.meta).issues :=
      dedupeIssues_idem _
    rw [hidem]
    rfl
  · intro hok
    unfold executeGraph
    dsimp only
    rw [if_pos hinit, if_neg hskip, if_neg (show ¬ (hasSev .error
      (validateGraph nodes edges st.numOutputs st.meta).issues = true) from by
        rw [hok]; decide)]

/-- C4 witness: the skip/compile dichotomy instantiated on the concrete
graph `c8nodes`/`c8edges` (which carries a structural error) with a live
engine. -/
theorem c4_errors_skip_compilation_witness :
    (wEngine.hydraInit = true ∧ wEngine.isInitialized = true) ∧
    ((hasSev .error (validateGraph c8nodes c8edges wEngine.numOutputs
        wEngine.meta).issues = true →
      executeGraph wEngine c8nodes c8edges =
        (validateGraph c8nodes c8edges wEngine.numOutputs wEngine.meta,
         wEngine, [])) ∧
     (hasSev .error (validateGraph c8nodes c8edges wEngine.numOutputs
        wEngine.meta).issues = false →
      executeGraph wEngine c8nodes c8edges =
        (rebuildGraphValidationResult c8nodes c8edges
          (dedupeIssues ((validateGraph c8nodes c8edges wEngine.numOutputs
              wEngine.meta).issues
            ++ (compileOutputsFold wEngine c8nodes c8edges).1))
          (validateGraph c8nodes c8edges wEngine.numOutputs
            wEngine.meta).reachableNodes
          (validateGraph c8nodes c8edges wEngine.numOutputs
            wEngine.meta).reachableEdges,
         (compileOutputsFold wEngine c8nodes c8edges).2.1,
         (compileOutputsFold wEngine c8nodes c8edges).2.2))) :=
  ⟨⟨rfl, rfl⟩, c4_errors_skip_compilation wEngine c8nodes c8edges rfl rfl⟩

/-! ### Claim C10 -/

theorem buildAndExecuteChain_events (st : EngineState) (nodes : List IRNode)
    (edges : List IREdge) (nid : String) (oi : ℚ) :
    ∀ ev ∈ (buildAndExecuteChain st nodes edges nid oi).2.2,
      ev.outputIndex = oi := by
  intro ev hev
  unfold buildAndExecuteChain at hev
  dsimp only at hev
  cases hres : (buildChainValidated ⟨nodes, edges, mkNodeById nodes⟩
      (chainFuel nodes) st nid oi [] []).1 with
  | err is_ =>
    rw [hres] at hev
    simp at hev
  | ok chain =>
    rw [hres] at hev
    dsimp only at hev
    by_cases hh : (!(buildChainValidated ⟨nodes, edges, mkNodeById nodes⟩
        (chainFuel nodes) st nid oi [] []).2.1.hydraInit) = true
    · rw [if_pos hh] at hev
      simp at hev
    · rw [if_neg hh] at hev
      simp only [List.mem_singleton] at hev
      rw [hev]

theorem compileFold_events (st : EngineState) (nodes : List IRNode)
    (edges : List IREdge) :
    ∀ p ∈ (compileOutputsFold st nodes edges).2.2,
      ∃ m ∈ nodes, m.type = "out" ∧ p.1 = m.id ∧
        p.2.outputIndex = outputIndexOf m := by
  unfold compileOutputsFold
  have := foldl_preserves
    (fun (acc : List Issue × EngineState × List (String × AttachEvent)) =>
      ∀ p ∈ acc.2.2, ∃ m ∈ nodes, m.type = "out" ∧ p.1 = m.id ∧
        p.2.outputIndex = outputIndexOf m)
    (nodes.filter (fun n => n.type == "out"))
    (fun acc outputNode =>
      let outputIndex := outputIndexOf outputNode
      match edges.filter (fun e => e.target == outputNode.id) with
      | [inputEdge] =>
        let r := buildAndExecuteChain acc.2.1 nodes edges inputEdge.source outputIndex
        (acc.1 ++ (r.1.getD []), r.2.1,
         acc.2.2 ++ r.2.2.map (fun ev => (outputNode.id, ev)))
      | _ => acc)
    ?_ ([], st, []) ?_
  · exact this
  · intro acc outNode hmem hacc
    have hout : outNode ∈ nodes ∧ outNode.type = "out" := by
      have h2 := List.mem_filter.mp hmem
      exact ⟨h2.1, by simpa using h2.2⟩
    dsimp only
    cases hE : edges.filter (fun e => e.target == outNode.id) with
    | nil => exact hacc
    | cons e0 rest =>
      cases rest with
      | cons e1 rest2 => exact hacc
      | nil =>
        dsimp only
        intro p hp
        rcases List.mem_append.mp hp with h | h
        · exact hacc p h
        · obtain ⟨ev, hev, hpe⟩ := List.mem_map.mp h
          refine ⟨outNode, hout.1, hout.2, ?_, ?_⟩
          · rw [← hpe]
          · rw [← hpe]
            exact buildAndExecuteChain_events acc.2.1 nodes edges e0.source
              (outputIndexOf outNode) ev hev
  · intro p hp
    simp at hp

theorem executeGraph_events_sub (st : EngineState) (nodes : List IRNode)
    (edges : List IREdge) :
    ∀ p ∈ (executeGraph st nodes edges).2.2,
      p ∈ (compileOutputsFold st nodes edges).2.2 := by
  intro p hp
  unfold executeGraph at hp
  dsimp only at hp
  by_cases h1 : (!st.hydraInit || !st.isInitialized) = true
  · rw [if_pos h1] at hp
    simp at hp
  · rw [if_neg h1] at hp
    by_cases h2 : hasSev .error (validateGraph nodes edges
        (if st.hydraInit = true then st.numOutputs else 4) st.meta).issues = true
    · rw [if_pos h2] at hp
      simp at hp
    · rw [if_neg h2] at hp
      exact hp

/-- C10: an output sink whose data map has no `outputIndex` key defaults
to output 0: its read index is `0`, `validateGraph` (with at least one
output) reports no `OUTPUT_INDEX_OUT_OF_RANGE` issue for it, and every
chain `executeGraph` attaches for that sink goes to output 0. -/
theorem c10_output_index_defaults_to_zero (nodes : List IRNode)
    (edges : List IREdge) (numOutputs : Nat) (meta : TransformMeta)
    (st : EngineState) (n : IRNode) (hn : n ∈ nodes) (ht : n.type = "out")
    (hkey : assocGet n.data "outputIndex" = none)
    (hnum : 1 ≤ numOutputs)
    (hnd : (nodes.map (fun m => m.id)).Nodup) :
    outputIndexOf n = 0 ∧
    (∀ j ∈ (validateGraph nodes edges numOutputs meta).issues,
       j.kind = .OUTPUT_INDEX_OUT_OF_RANGE → ¬ j.nodeId = some n.id) ∧
    (∀ p ∈ (executeGraph st nodes edges).2.2, p.1 = n.id →
       p.2.outputIndex = 0) := by
  have hoi : outputIndexOf n = 0 := by
    unfold outputIndexOf
    rw [hkey]
    rfl
  refine ⟨hoi, ?_, ?_⟩
  · intro j hj hkind hnid
    obtain ⟨m, hm, htype, hform, hbad⟩ :=
      validateGraph_oioor_form nodes edges numOutputs meta j hj hkind
    have hjm : j.nodeId = some m.id := by rw [hform]; rfl
    have hmid : m.id = n.id := by
      have := hjm.symm.trans hnid
      exact Option.some_injective _ this
    have hmn : m = n := (List.inj_on_of_nodup_map hnd) hm hn hmid
    rw [hmn, hoi] at hbad
    rcases hbad with h | h | h
    · exact h rfl
    · exact absurd h (by norm_num)
    · have h1 : (1 : ℚ) ≤ (numOutputs : ℚ) := by exact_mod_cast hnum
      linarith
  · intro p hp hpid
    have hp' := executeGraph_events_sub st nodes edges p hp
    obtain ⟨m, hm, htype, hpid', hoi'⟩ := compileFold_events st nodes edges p hp'
    have hmid : m.id = n.id := by rw [← hpid', hpid]
    have hmn : m = n := (List.inj_on_of_nodup_map hnd) hm hn hmid
    rw [hoi', hmn, hoi]

/-- C10 witness: the default-to-zero behaviour instantiated on the sink
`out-Z` of the concrete graph `c10nodes`/`c10edges`. -/
theorem c10_output_index_defaults_to_zero_witness :
    ((⟨"out-Z", "out", [], (0, 0)⟩ : IRNode) ∈ c10nodes ∧
     (⟨"out-Z", "out", [], (0, 0)⟩ : IRNode).type = "out" ∧
     assocGet (⟨"out-Z", "out", [], (0, 0)⟩ : IRNode).data "outputIndex" = none ∧
     1 ≤ 4 ∧ (c10nodes.map (fun m => m.id)).Nodup) ∧
    (outputIndexOf (⟨"out-Z", "out", [], (0, 0)⟩ : IRNode) = 0 ∧
     (∀ j ∈ (validateGraph c10nodes c10edges 4 wMeta).issues,
        j.kind = .OUTPUT_INDEX_OUT_OF_RANGE →
          ¬ j.nodeId = some (⟨"out-Z", "out", [], (0, 0)⟩ : IRNode).id) ∧
     (∀ p ∈ (executeGraph wEngine c10nodes c10edges).2.2,
        p.1 = (⟨"out-Z", "out", [], (0, 0)⟩ : IRNode).id →
          p.2.outputIndex = 0)) :=
  ⟨⟨by decide, rfl, rfl, by decide, by decide⟩,
   c10_output_index_defaults_to_zero c10nodes c10edges 4 wMeta wEngine
     ⟨"out-Z", "out", [], (0, 0)⟩ (by decide) rfl rfl (by decide) (by decide)⟩

end Hydraflow
